import Mathlib

/-!
# hrr: request pipeline and response writer

A shallow embedding of `request.go` and `response.go`.

Modelling conventions.
* A Go `error` value is its text, `nil` is `none` (`GoError`).
* Byte slices and Go strings are Lean strings.
* Pointers are addresses into one memory of cells (`Mem`). A `*int64`
  destination is the address of a cell; a decode target is the address the
  decoder is handed. The decoder and the validator work on the whole memory,
  so a destination may be the decode target or a field inside it
  (`&m.ID` next to `DecodeBody(&m)`).
* The libraries the package calls (`encoding/json`, the validator,
  `strconv.Quote`) are the fields of `Lib`; `strconv.ParseInt`,
  `Params.ByName`, `ioutil.ReadAll` and the response recorder are modelled
  directly.
* A logger is modelled by the sink its `Out` field points to; every entry
  handed to a logger is recorded together with that sink.
* A producer passed to `Data` is a function on the state of the caller's
  variables, so that each call of it shows in that state.
* What the random sources deliver to `newLogID` is an input (`Entropy`);
  SHA-1 is a parameter, the hexadecimal encoding is modelled.
-/

namespace hrr

/-- A Go `error`: `none` is `nil`, `some s` an error whose `Error()` is `s`. -/
abbrev GoError := Option String

/-! ## strconv.ParseInt (base 10, 64 bits) -/

/-- The two `strconv` failures. -/
inductive NumErr where
  | ErrSyntax
  | ErrRange
  deriving DecidableEq, Repr

/-- The constant `maxUint64 = 1<<64 - 1`. -/
def maxUint64 : Nat := 2 ^ 64 - 1

/-- The loop of `strconv.ParseUint(s, 10, 64)`: `n` is the `uint64`
accumulator, the additions wrap modulo `2^64` as they do in Go. -/
def parseUintLoop : List Char → Nat → Except NumErr Nat
  | [], n => .ok n
  | d :: ds, n =>
    if '0' ≤ d ∧ d ≤ '9' then
      let v := d.toNat - '0'.toNat
      if n ≥ maxUint64 / 10 + 1 then .error .ErrRange
      else
        let n10 := (n * 10) % 2 ^ 64
        let n1 := (n10 + v) % 2 ^ 64
        if n1 < n10 ∨ n1 > maxUint64 then .error .ErrRange
        else parseUintLoop ds n1
    else .error .ErrSyntax

/-- Go `strconv.ParseUint(s, 10, 64)` on the characters of `s`. -/
def ParseUint (s : List Char) : Except NumErr Nat :=
  if s = [] then .error .ErrSyntax else parseUintLoop s 0

/-- Go `strconv.ParseInt(s, 10, 64)`: an optional sign, then `ParseUint`,
then the signed range check against `cutoff = 1 << 63`. -/
def ParseInt (s : String) : Except NumErr Int :=
  match s.toList with
  | [] => .error .ErrSyntax
  | c :: cs =>
    let neg := c = '-'
    let rest := if c = '+' ∨ c = '-' then cs else c :: cs
    match ParseUint rest with
    | .error .ErrSyntax => .error .ErrSyntax
    | .error .ErrRange => .error .ErrRange
    | .ok un =>
      if ¬ neg ∧ un ≥ 2 ^ 63 then .error .ErrRange
      else if neg ∧ un > 2 ^ 63 then .error .ErrRange
      else .ok (if neg then - (un : Int) else (un : Int))

/-! ## The libraries behind the package -/

/-- One entry of the validator's `ValidationErrors`: the struct field and
the tag (rule) it failed. -/
structure FieldError where
  Field : String
  Tag : String
  deriving DecidableEq, Repr

/-- One cell of the caller's memory: an `int64` variable or field, or any
other Go value. -/
inductive Cell (Obj : Type) where
  | int64 (i : Int)
  | value (o : Obj)
  deriving DecidableEq, Repr

/-- The caller's memory, the variables handed to the pipeline by pointer:
one address space of cells. A struct occupies the cells of its fields, so a
pointer to one of its `int64` fields is the address of a cell that the
decoder writes when it decodes into the struct. -/
abbrev Mem (Obj : Type) := Nat → Cell Obj

/-- The library functions the package calls, over the Go values `Obj` a
cell can hold.
* `checkValid` is the syntax scan `json.Unmarshal` runs first: `none` for
  well-formed JSON, otherwise the syntax error.
* `decode data a m` is the decoding proper into the target at address `a`:
  the memory afterwards and the error, if any (a type mismatch can leave
  the target partly written).
* `validate tag a m` is `validator.New(config).Struct(v)` with `TagName` set
  to `tag`, on the struct at address `a`: `none` is `nil`, `some es` a
  `ValidationErrors` listed in the order in which `range` yields its entries.
* `jsonString s` is the JSON text `json.Marshal` produces for the string `s`.
* `marshal o` is `json.Marshal` of a value.
* `quote` is `strconv.Quote`. -/
structure Lib (Obj : Type) where
  checkValid : String → GoError
  decode : String → Nat → Mem Obj → Mem Obj × GoError
  validate : String → Nat → Mem Obj → Option (List FieldError)
  jsonString : String → String
  marshal : Obj → Except String String
  quote : String → String

/-- Go `json.Unmarshal(data, v)` for the pointer `v` to address `a`:
validate the syntax of the whole input, and only then decode into the
target. -/
def jsonUnmarshal {Obj : Type} (lib : Lib Obj) (data : String) (a : Nat) (m : Mem Obj) :
    Mem Obj × GoError :=
  match lib.checkValid data with
  | some e => (m, some e)
  | none => lib.decode data a m

/-- Text of the `*strconv.NumError` that `ParseInt` returns for input `s`. -/
def numErrorText {Obj : Type} (lib : Lib Obj) (s : String) : NumErr → String
  | .ErrSyntax => "strconv.ParseInt: parsing " ++ lib.quote s ++ ": invalid syntax"
  | .ErrRange => "strconv.ParseInt: parsing " ++ lib.quote s ++ ": value out of range"

/-! ## net/http: the request and its body reader -/

/-- An `io.Reader` as `ioutil.ReadAll` sees it: the bytes it still yields
and how it ends, `none` for `io.EOF`, `some e` for a read failure. -/
structure Reader where
  data : String
  fail : GoError
  deriving DecidableEq, Repr

/-- Go `ioutil.ReadAll`: the bytes read and the error (never `io.EOF`),
together with the drained reader. -/
def ReadAll (b : Reader) : (String × GoError) × Reader :=
  ((b.data, b.fail), { data := "", fail := b.fail })

/-- The fields of `*http.Request` the package uses. `basicAuth` is the
result of `r.BasicAuth()`, `URL` that of `r.URL.String()`. -/
structure HttpRequest where
  RemoteAddr : String
  Method : String
  URL : String
  basicAuth : String × String × Bool
  Body : Reader
  deriving DecidableEq, Repr

/-! ## Logging -/

/-- Where a logger's `Out` points: `ioutil.Discard` or the sink of the
global `Logger`. -/
inductive Sink where
  | Discard
  | LoggerOut
  deriving DecidableEq, Repr

/-- Level of a log call (`Infoln` or `Error`). -/
inductive Level where
  | Info
  | Error
  deriving DecidableEq, Repr

/-- One entry handed to a logger: the sink of that logger, the level, the
fields and the message. -/
structure LogEntry where
  out : Sink
  level : Level
  fields : List (String × String)
  message : String
  deriving DecidableEq, Repr

/-- The package-level configuration variables `LogAllRequests` and
`ValidatorTagName` (the global `Logger` is the sink `Sink.LoggerOut`). -/
structure Globals where
  LogAllRequests : Bool
  ValidatorTagName : String
  deriving DecidableEq, Repr

/-! ## request.go -/

/-- Go type `authFunc`. -/
abbrev authFunc := String → String → Bool × GoError

/-- Go struct `requestError`. -/
structure requestError where
  message : String
  err : GoError
  deriving DecidableEq, Repr

/-- Go `NewError`. -/
def NewError (message : String) (err : GoError) : requestError :=
  { message := message, err := err }

/-- Go `requestError.Message`. -/
def requestError.Message (err : requestError) : String := err.message

/-- Go `requestError.Error`: `err.err.Error()`, which dereferences a nil
interface when the cause is nil; `none` is that panic. -/
def requestError.Error (err : requestError) : Option String := err.err

/-- The value passed as `p` to `ParamInt64`, by concrete type: the
`Params` of httprouter or gin (key/value pairs), or anything else, `nil`
included. -/
inductive ParamData where
  | httprouterParams (ps : List (String × String))
  | ginParams (ps : List (String × String))
  | other (nil : Bool)
  deriving DecidableEq, Repr

/-- Go `Params.ByName` (httprouter and gin alike): the value of the first
entry with that key, or the empty string. -/
def ByName : List (String × String) → String → String
  | [], _ => ""
  | (k, v) :: ps, name => if k = name then v else ByName ps name

/-- Go struct `paramInt64`; `i64` is the address of the destination. -/
structure paramInt64 where
  data : ParamData
  name : String
  i64 : Nat
  deriving DecidableEq, Repr

/-- Go struct `request` (its field `request` is `httpRequest` here).
`logger` is the sink of the per-request logger,
`bodyObject` the address of the decode target (`none` for nil). -/
structure request where
  httpRequest : HttpRequest
  logger : Sink
  bodyObject : Option Nat
  body : String
  paramsInt64 : List paramInt64
  enableValidateBody : Bool
  authFunc : authFunc

/-- Go `allIn`. -/
def allIn : authFunc := fun _ _ => (true, none)

/-- Go `(*request).Log`. -/
def request.Log (r : request) : request := { r with logger := Sink.LoggerOut }

/-- Go `Request`: the logger starts on `ioutil.Discard`. -/
def Request (g : Globals) (r : HttpRequest) : request :=
  let request : request :=
    { httpRequest := r, logger := Sink.Discard, bodyObject := none, body := "",
      paramsInt64 := [], enableValidateBody := false, authFunc := allIn }
  if g.LogAllRequests then request.Log else request

/-- Go `(*request).DecodeBody`. -/
def request.DecodeBody (r : request) (body : Option Nat) : request :=
  { r with bodyObject := body }

/-- Go `(*request).ParamInt64`. -/
def request.ParamInt64 (r : request) (p : ParamData) (name : String) (i : Nat) : request :=
  { r with paramsInt64 := r.paramsInt64 ++ [{ data := p, name := name, i64 := i }] }

/-- Go `(*request).ValidateBody`. -/
def request.ValidateBody (r : request) : request := { r with enableValidateBody := true }

/-- Go `(*request).BaseAuth`. -/
def request.BaseAuth (r : request) (fn : hrr.authFunc) : request := { r with authFunc := fn }

/-- Go `(*request).Post`. -/
def request.Post (r : request) (model : Option Nat) : request :=
  (r.DecodeBody model).ValidateBody

/-- Go `(*request).Put`. -/
def request.Put (r : request) (model : Option Nat) (p : ParamData) (n : String) (i : Nat) :
    request :=
  ((r.DecodeBody model).ValidateBody).ParamInt64 p n i

/-- What `Process` works on: the pipeline, the caller's variables and the
log entries emitted so far (oldest first). -/
structure State (Obj : Type) where
  r : request
  mem : Mem Obj
  log : List LogEntry

/-- Go `(*request).auth`. -/
def auth (r : request) : Option requestError :=
  let user := r.httpRequest.basicAuth.1
  let password := r.httpRequest.basicAuth.2.1
  let res := r.authFunc user password
  if res.1 = false ∨ res.2 ≠ none then
    some (NewError ("Unauthorized user " ++ user) res.2)
  else none

/-- Go `(*request).setBody`. -/
def setBody (r : request) : Option requestError × request :=
  let res := ReadAll r.httpRequest.Body
  let r1 : request := { r with httpRequest := { r.httpRequest with Body := res.2 } }
  match res.1.2 with
  | some e => (some (NewError "Error while reading Process Body" (some e)), r1)
  | none => (none, { r1 with body := res.1.1 })

/-- Go `(*request).logRequest`: one `Infoln()` entry with four fields. -/
def logRequest (r : request) : LogEntry :=
  { out := r.logger, level := Level.Info,
    fields := [("remote_addr", r.httpRequest.RemoteAddr), ("method", r.httpRequest.Method),
               ("url", r.httpRequest.URL), ("body", r.body)],
    message := "" }

/-- Go `(*request).decodeBody` for the target at address `a`. -/
def decodeBody {Obj : Type} (lib : Lib Obj) (r : request) (a : Nat) (m : Mem Obj) :
    Option requestError × Mem Obj :=
  let res := jsonUnmarshal lib r.body a m
  match res.2 with
  | some e => (some (NewError "Error cannot parse JSON body" (some e)), res.1)
  | none => (none, res.1)

/-- The buffer `validateBody` fills: it starts empty and the loop over the
`ValidationErrors` appends one `Sprintf("%v failed due to %v", ...)` each. -/
def validationMessage (errMsgs : List FieldError) : String :=
  errMsgs.foldl (fun err v => err ++ (v.Field ++ " failed due to " ++ v.Tag)) ""

/-- Go `(*request).validateBody` for the target at address `a`. -/
def validateBody {Obj : Type} (lib : Lib Obj) (g : Globals) (a : Nat) (m : Mem Obj) :
    Option requestError :=
  match lib.validate g.ValidatorTagName a m with
  | some errMsgs =>
    let err := validationMessage errMsgs
    some (NewError err (some err))
  | none => none

/-- Go `queryHTTPRouterParams` and `queryGinParams` (the same body, on the
asserted `Params`). -/
def queryParams {Obj : Type} (lib : Lib Obj) (params : List (String × String))
    (v : paramInt64) (m : Mem Obj) : Option requestError × Mem Obj :=
  let tmp := ByName params v.name
  match ParseInt tmp with
  | .error e =>
    (some (NewError ("Error cannot find int64 parameter " ++ v.name)
      (some (numErrorText lib tmp e))), m)
  | .ok i => (none, Function.update m v.i64 (Cell.int64 i))

/-- Go `(*request).queryParamInt64`: the type switch on `v.data`. -/
def queryParamInt64 {Obj : Type} (lib : Lib Obj) (v : paramInt64) (m : Mem Obj) :
    Option requestError × Mem Obj :=
  match v.data with
  | .httprouterParams ps => queryParams lib ps v m
  | .ginParams ps => queryParams lib ps v m
  | .other _ =>
    (some (NewError "Not supported parameter store" (some "Not supported parameter store")), m)

/-- The loop `for _, v := range r.paramsInt64` of `Process`. -/
def queryAll {Obj : Type} (lib : Lib Obj) : List paramInt64 → Mem Obj →
    Option requestError × Mem Obj
  | [], m => (none, m)
  | v :: vs, m =>
    match queryParamInt64 lib v m with
    | (some e, m1) => (some e, m1)
    | (none, m1) => queryAll lib vs m1

/-- The `if r.bodyObject != nil` block of `Process`. -/
def decodeStage {Obj : Type} (lib : Lib Obj) (g : Globals) (r : request) (m : Mem Obj) :
    Option requestError × Mem Obj :=
  match r.bodyObject with
  | none => (none, m)
  | some a =>
    match decodeBody lib r a m with
    | (some e, m1) => (some e, m1)
    | (none, m1) =>
      if r.enableValidateBody then (validateBody lib g a m1, m1) else (none, m1)

/-- Go `(*request).Process`. The `Error` that `setBody` returns is dropped,
as in the source (`r.setBody()` is called as a statement). -/
def Process {Obj : Type} (lib : Lib Obj) (g : Globals) (s : State Obj) :
    Option requestError × State Obj :=
  match auth s.r with
  | some err => (some err, s)
  | none =>
    let r1 := (setBody s.r).2
    let log1 := s.log ++ [logRequest r1]
    match decodeStage lib g r1 s.mem with
    | (some err, m1) => (some err, { r := r1, mem := m1, log := log1 })
    | (none, m1) =>
      match queryAll lib r1.paramsInt64 m1 with
      | (some err, m2) => (some err, { r := r1, mem := m2, log := log1 })
      | (none, m2) => (none, { r := r1, mem := m2, log := log1 })

/-! ## response.go -/

/-- The `http.ResponseWriter`, as the recorder of `net/http/httptest`
behaves: the first `WriteHeader` fixes the status, `Write` sends status 200
first when none was written, and never fails. `Code = none` means that no
header has been written yet. -/
structure ResponseWriter where
  Code : Option Nat
  Body : String
  deriving DecidableEq, Repr

/-- Go `ResponseWriter.WriteHeader`. -/
def ResponseWriter.WriteHeader (w : ResponseWriter) (code : Nat) : ResponseWriter :=
  match w.Code with
  | some _ => w
  | none => { w with Code := some code }

/-- Go `ResponseWriter.Write`: the writer afterwards and the error. -/
def ResponseWriter.Write (w : ResponseWriter) (b : String) : ResponseWriter × GoError :=
  let w1 := w.WriteHeader 200
  ({ w1 with Body := w1.Body ++ b }, none)

/-- Go struct `response` (its fields `response` and `request` are `writer`
and `httpRequest` here); `logger` is the sink of the global `Logger`. -/
structure response where
  writer : ResponseWriter
  httpRequest : HttpRequest
  statusCode : Nat
  logger : Sink
  logID : String
  body : String
  deriving DecidableEq, Repr

/-- What `fmt.Sprint` prints for a value whose `Error` method panics. -/
def fmtPanicText : String :=
  "%!v(PANIC=Error method: runtime error: invalid memory address or nil pointer dereference)"

/-- The text `fmt.Sprint(err)` yields for an `Error` held in a
`requestError`: the result of `Error()`, or the panic marker. -/
def sprintError (err : requestError) : String :=
  match err.Error with
  | some s => s
  | none => fmtPanicText

/-- Go `(*response).logError`, on the text of the error to log. The
branch `e == io.EOF` is left out: `ioutil.ReadAll` never returns `io.EOF`. -/
def response.logError (r : response) (err : String) : response × List LogEntry :=
  let l : List (String × String) :=
    [("id", r.logID), ("remote_addr", r.httpRequest.RemoteAddr),
     ("url", r.httpRequest.URL), ("method", r.httpRequest.Method)]
  let res := ReadAll r.httpRequest.Body
  let r1 : response := { r with httpRequest := { r.httpRequest with Body := res.2 } }
  match res.1.2 with
  | some e =>
    (r1, [{ out := r.logger, level := Level.Error, fields := l, message := e },
          { out := r.logger, level := Level.Error, fields := l, message := err }])
  | none =>
    ({ r1 with body := res.1.1 },
     [{ out := r.logger, level := Level.Error, fields := l ++ [("body", res.1.1)],
        message := err }])

/-- Go `Response`; `id` is the pair `newLogID()` returned. -/
def Response (w : ResponseWriter) (r : HttpRequest) (id : String × GoError) :
    response × List LogEntry :=
  let resp : response :=
    { writer := w, httpRequest := r, statusCode := 200, logger := Sink.LoggerOut,
      logID := id.1, body := "empty body" }
  match id.2 with
  | some e => resp.logError e
  | none => (resp, [])

/-- Go `json.Marshal` of an `errorResponse` with `ID` set to `id` and
`Message` to `message`: an object with the two tagged string fields, in
declaration order. -/
def marshalErrorResponse {Obj : Type} (lib : Lib Obj) (id message : String) : String :=
  "\x7b\"id\":" ++ lib.jsonString id ++ ",\"message\":" ++ lib.jsonString message ++ "\x7d"

/-- Go `(*response).json`, on the result of `json.Marshal(data)`. -/
def response.json (r : response) (marshalled : Except String String) :
    response × List LogEntry :=
  match marshalled with
  | .error e => r.logError e
  | .ok body =>
    let res := r.writer.Write body
    let r1 : response := { r with writer := res.1 }
    match res.2 with
    | some e => r1.logError e
    | none => (r1, [])

/-- Go `(*response).Error`. -/
def response.Error {Obj : Type} (lib : Lib Obj) (r : response) (err : requestError) :
    response × List LogEntry :=
  let r1 : response := { r with writer := r.writer.WriteHeader 400 }
  let res2 := r1.logError (sprintError err)
  let res3 := res2.1.json (.ok (marshalErrorResponse lib res2.1.logID err.Message))
  (res3.1, res2.2 ++ res3.2)

/-- Go `(*response).StatusCode`. -/
def response.StatusCode (r : response) (c : Nat) : response := { r with statusCode := c }

/-- Go `(*response).Data`. The producer `fn` is a closure over the caller's
variables: it is run on their state `p` and returns the produced value, the
error and their new state; the state is returned next to the response so
that the number of calls of `fn` shows. -/
def response.Data {Obj P : Type} (lib : Lib Obj) (r : response)
    (fn : P → (Obj × Option requestError) × P) (p : P) : (response × List LogEntry) × P :=
  let res := fn p
  match res.1.2 with
  | some err => (r.Error lib err, res.2)
  | none =>
    let r1 : response := { r with writer := r.writer.WriteHeader r.statusCode }
    (r1.json (lib.marshal res.1.1), res.2)

/-- Go `(*response).OK`. -/
def response.OK (r : response) : response :=
  { r with writer := r.writer.WriteHeader 200 }

/-- Go `(*response).Post`. -/
def response.Post {Obj P : Type} (lib : Lib Obj) (r : response)
    (fn : P → (Obj × Option requestError) × P) (p : P) : (response × List LogEntry) × P :=
  (r.StatusCode 201).Data lib fn p

/-- One hexadecimal digit, lower case, as the verb `%x` prints it. -/
def hexDigit (n : Nat) : Char :=
  if n < 10 then Char.ofNat ('0'.toNat + n) else Char.ofNat ('a'.toNat + (n - 10))

/-- The two digits `%x` prints for one byte. -/
def hexByte (b : Nat) : List Char :=
  [hexDigit (b % 256 / 16), hexDigit (b % 16)]

/-- Go `fmt.Sprintf("%x", sum)` on a byte slice. -/
def hexEncode (sum : List Nat) : String :=
  String.mk (sum.flatMap hexByte)

/-- What the two random sources hand to one call of `newLogID`:
`crandBytes` is the buffer `rb` after `crand.Read(rb)`, `crandN` and
`crandErr` are what that call returned, and `perm` is the permutation
`r.Perm(total)` of the generator seeded with the clock. -/
structure Entropy where
  crandBytes : List Nat
  crandN : Nat
  crandErr : GoError
  perm : List Nat
  deriving DecidableEq, Repr

/-- The loop `for i, v := range s` of `newLogID`: `rb[i] = byte(v)`. -/
def fillFromPerm (rb : List Nat) (s : List Nat) : List Nat :=
  (s.map fun v => v % 256) ++ rb.drop s.length

/-- Go `newLogID`; `sha1` is the digest `hash.Sum(nil)` of the bytes
written to `sha1.New()`, a list of 20 bytes. -/
def newLogID (sha1 : List Nat → List Nat) (e : Entropy) : String × GoError :=
  let total := 500
  let rb := e.crandBytes
  let rb := if e.crandN ≠ total ∨ e.crandErr ≠ none then fillFromPerm rb e.perm else rb
  (hexEncode (sha1 rb), e.crandErr)

/-! ## Chains of configurator calls -/

/-- One call of a configurator method on a pipeline. -/
inductive Call where
  | Log
  | DecodeBody (body : Option Nat)
  | ValidateBody
  | BaseAuth (fn : authFunc)
  | ParamInt64 (p : ParamData) (name : String) (i : Nat)

/-- The method call on the pipeline `r`. -/
def Call.apply (r : request) : Call → request
  | .Log => r.Log
  | .DecodeBody body => r.DecodeBody body
  | .ValidateBody => r.ValidateBody
  | .BaseAuth fn => r.BaseAuth fn
  | .ParamInt64 p name i => r.ParamInt64 p name i

/-- A chain `r.c1().c2()...`, calls applied from left to right. -/
def configure (r : request) (calls : List Call) : request :=
  calls.foldl Call.apply r

/-- Whether the call is `Log()`. -/
def Call.isLog : Call → Bool
  | .Log => true
  | _ => false

/-- Whether the call is `ValidateBody()`. -/
def Call.isValidateBody : Call → Bool
  | .ValidateBody => true
  | _ => false

/-- The target of a `DecodeBody` call. -/
def Call.decodeTarget : Call → Option (Option Nat)
  | .DecodeBody body => some body
  | _ => none

/-- The predicate of a `BaseAuth` call. -/
def Call.authPredicate : Call → Option authFunc
  | .BaseAuth fn => some fn
  | _ => none

/-- The entry a `ParamInt64` call registers. -/
def Call.param : Call → Option paramInt64
  | .ParamInt64 p name i => some { data := p, name := name, i64 := i }
  | _ => none

/-- The integer a registered parameter resolves to: the source is one of
the two recognised `Params` types and the value found under the name
parses; `none` when resolution fails. -/
def paramValue (v : paramInt64) : Option Int :=
  match v.data with
  | .httprouterParams ps =>
    match ParseInt (ByName ps v.name) with
    | .ok i => some i
    | .error _ => none
  | .ginParams ps =>
    match ParseInt (ByName ps v.name) with
    | .ok i => some i
    | .error _ => none
  | .other _ => none

/-! ## The integer a text denotes -/

/-- The number written by the decimal digits `ds` when `n` is the number
written by the digits before them. -/
def decimalValueFrom (ds : List Char) (n : Nat) : Nat :=
  ds.foldl (fun n d => 10 * n + (d.toNat - '0'.toNat)) n

/-- Written from the specification's words ("the resolved string is parsed
as a base-10 64-bit integer"), not from the code: the integer the text `s`
denotes in base 10, an optional sign followed by at least one decimal digit,
provided it lies in the range `-2^63 .. 2^63-1`; `none` for every other
text. -/
def decimalInt64 (s : String) : Option Int :=
  match s.toList with
  | [] => none
  | c :: cs =>
    let digits := if c = '+' ∨ c = '-' then cs else c :: cs
    if digits ≠ [] ∧ ∀ d ∈ digits, '0' ≤ d ∧ d ≤ '9' then
      let v : Int := if c = '-' then - (decimalValueFrom digits 0 : Int)
        else (decimalValueFrom digits 0 : Int)
      if - (2 : Int) ^ 63 ≤ v ∧ v ≤ 2 ^ 63 - 1 then some v else none
    else none

/-! ## Inputs of the examples -/

/-- Go struct `TestObject` of `request_test.go`: one string field tagged
`json:"value" validate:"required"`. -/
structure TestObject where
  Value : String
  deriving DecidableEq, Repr

/-- The libraries on the inputs the examples use. A target at address `a`
is a struct that keeps its string field `Value`, tagged
`json:"value" validate:"required"`, in the cell `a` and, if it has one, its
`int64` field `ID`, tagged `json:"id"`, in the cell `a + 1`. The four bodies
listed are well-formed; the last one puts a number where a string is
expected, which `json.Unmarshal` reports after decoding the other fields.
The body `x` is not well-formed and is reported as `encoding/json` reports
it. The rule `required` rejects the empty string. -/
def exampleLib : Lib TestObject where
  checkValid data :=
    if data = "\x7b\"value\": \"a\"\x7d" ∨ data = "\x7b\"value\": \"\"\x7d" ∨
        data = "\x7b\"id\": 5, \"value\": \"a\"\x7d" ∨
        data = "\x7b\"id\": 5, \"value\": 7\x7d" then none
    else some "invalid character 'x' looking for beginning of value"
  decode data a m :=
    if data = "\x7b\"value\": \"a\"\x7d" then
      (Function.update m a (Cell.value { Value := "a" }), none)
    else if data = "\x7b\"value\": \"\"\x7d" then
      (Function.update m a (Cell.value { Value := "" }), none)
    else if data = "\x7b\"id\": 5, \"value\": \"a\"\x7d" then
      (Function.update (Function.update m (a + 1) (Cell.int64 5)) a
        (Cell.value { Value := "a" }), none)
    else if data = "\x7b\"id\": 5, \"value\": 7\x7d" then
      (Function.update m (a + 1) (Cell.int64 5),
        some "json: cannot unmarshal number into Go value of type string")
    else (m, none)
  validate tag a m :=
    match m a with
    | .value o =>
      if tag = "validate" ∧ o.Value = "" then some [{ Field := "Value", Tag := "required" }]
      else none
    | .int64 _ => none
  jsonString s := "\"" ++ s ++ "\""
  marshal o := .ok ("\x7b\"value\":\"" ++ o.Value ++ "\"\x7d")
  quote s := "\"" ++ s ++ "\""

/-- The package variables as the tests leave them. -/
def exampleGlobals : Globals := { LogAllRequests := false, ValidatorTagName := "validate" }

/-- A `POST /` request with the given body and Basic-auth user. -/
def exampleRequest (user body : String) : HttpRequest :=
  { RemoteAddr := "192.168.1.1", Method := "POST", URL := "/",
    basicAuth := (user, ":)", true), Body := { data := body, fail := none } }

/-- A request whose body reader fails at once. -/
def brokenRequest : HttpRequest :=
  { RemoteAddr := "192.168.1.1", Method := "POST", URL := "/",
    basicAuth := ("", "", false), Body := { data := "", fail := some "unexpected EOF" } }

/-- The caller's variables before the call, zero values everywhere: the
cells below 10 and the odd cells are `int64` variables and fields, the even
cells from 10 on hold the string fields of structs. -/
def exampleMem : Mem TestObject :=
  fun a => if a < 10 ∨ a % 2 = 1 then Cell.int64 0 else Cell.value { Value := "" }

/-- A pipeline about to be processed, nothing logged yet. -/
def exampleState (r : request) : State TestObject := { r := r, mem := exampleMem, log := [] }

/-- A predicate that rejects everybody. -/
def rejectAll : authFunc := fun _ _ => (false, none)

/-- The `Params` of the route `/:id` matched against `/1`. -/
def paramsOne : ParamData := .httprouterParams [("id", "1")]

/-- The `Params` of the route `/:id` matched against `/a`. -/
def paramsA : ParamData := .httprouterParams [("id", "a")]

/-- The `Params` of a route `/:a/:b` matched against `/1/2`. -/
def paramsTwo : ParamData := .httprouterParams [("a", "1"), ("b", "2")]

/-- Everything configured, then a predicate that rejects: the chain
`Log().DecodeBody(&body).ValidateBody().ParamInt64(p, "id", &id).BaseAuth(rejectAll)`. -/
def unauthorizedState : State TestObject :=
  exampleState
    (configure (Request exampleGlobals (exampleRequest "Deadpool" "\x7b\"value\": \"a\"\x7d"))
      [.Log, .DecodeBody (some 10), .ValidateBody, .ParamInt64 paramsOne "id" 0,
       .BaseAuth rejectAll])

/-- The pipeline `Request(r)` on a request whose body cannot be read. -/
def brokenBodyState : State TestObject :=
  exampleState (Request exampleGlobals brokenRequest)

/-- The pipeline `Request(r).DecodeBody(&body)` on the body `x`. -/
def malformedBodyState : State TestObject :=
  exampleState (configure (Request exampleGlobals (exampleRequest "" "x")) [.DecodeBody (some 10)])

/-- The pipeline `Request(r).DecodeBody(&body).ValidateBody()` on a body
whose `value` is empty (`Test_ValidateBodyError`). -/
def emptyValueState : State TestObject :=
  exampleState
    (configure (Request exampleGlobals (exampleRequest "" "\x7b\"value\": \"\"\x7d"))
      [.DecodeBody (some 10), .ValidateBody])

/-- The pipeline `Request(r).ParamInt64(p, "id", &result)` on the route
`/:id` matched against `/a` (`Test_ParamInt64httprouterError`). -/
def paramAState : State TestObject :=
  exampleState (configure (Request exampleGlobals (exampleRequest "" ""))
    [.ParamInt64 paramsA "id" 0])

/-- The pipeline `Request(r).ParamInt64(nil, "id", &result)`
(`Test_ParamInt64ErrorNotSupportedStore`). -/
def nilStoreState : State TestObject :=
  exampleState (configure (Request exampleGlobals (exampleRequest "" ""))
    [.ParamInt64 (.other true) "id" 0])

/-- The chain `BaseAuth(rejectAll).BaseAuth(allIn)`. -/
def chainRejectThenAllow : List Call := [.BaseAuth rejectAll, .BaseAuth allIn]

/-- The chain `BaseAuth(allIn).BaseAuth(rejectAll)`. -/
def chainAllowThenReject : List Call := [.BaseAuth allIn, .BaseAuth rejectAll]

/-- The chain `DecodeBody(&first).DecodeBody(&second)`. -/
def chainDecodeFirstThenSecond : List Call := [.DecodeBody (some 10), .DecodeBody (some 12)]

/-- The chain `DecodeBody(&second).DecodeBody(&first)`. -/
def chainDecodeSecondThenFirst : List Call := [.DecodeBody (some 12), .DecodeBody (some 10)]

/-- The chain of the `PUT` handler of `Example_LittleMonstersDefault`:
`ParamInt64(p, "id", &id).DecodeBody(&monster).ValidateBody().BaseAuth(VerifyUser)`. -/
def chainParamFirst : List Call :=
  [.ParamInt64 paramsOne "id" 0, .DecodeBody (some 10), .ValidateBody, .BaseAuth allIn]

/-- The same calls with `ParamInt64` after `DecodeBody`. -/
def chainDecodeFirst : List Call :=
  [.DecodeBody (some 10), .ParamInt64 paramsOne "id" 0, .ValidateBody, .BaseAuth allIn]

/-- A `POST /` request whose body sets `value` to `a`. -/
def valueARequest : HttpRequest := exampleRequest "Deadpool" "\x7b\"value\": \"a\"\x7d"

/-- The pipeline `Request(r)` followed by a chain of calls, about to be
processed on a request whose body sets `value` to `a`. -/
def chainState (calls : List Call) : State TestObject :=
  exampleState (configure (Request exampleGlobals valueARequest) calls)

/-- The `Params` of a route `/:a/:b/:c` matched against `/1/2/x`. -/
def paramsThree : ParamData := .httprouterParams [("a", "1"), ("b", "2"), ("c", "x")]

/-- Three parameters registered with one and the same destination `&id`:
`ParamInt64(p, "a", &id).ParamInt64(p, "b", &id).ParamInt64(p, "c", &id)`
on the route matched against `/1/2/x`. -/
def sharedFailingState : State TestObject :=
  chainState [.ParamInt64 paramsThree "a" 0, .ParamInt64 paramsThree "b" 0,
    .ParamInt64 paramsThree "c" 0]

/-- The same three parameters with destinations of their own. -/
def distinctFailingState : State TestObject :=
  chainState [.ParamInt64 paramsThree "a" 0, .ParamInt64 paramsThree "b" 1,
    .ParamInt64 paramsThree "c" 2]

/-- Two parameters registered with one and the same destination `&id`:
`ParamInt64(p, "a", &id).ParamInt64(p, "b", &id)` on the route matched
against `/1/2`. -/
def sharedState : State TestObject :=
  chainState [.ParamInt64 paramsTwo "a" 0, .ParamInt64 paramsTwo "b" 0]

/-- The pipeline `DecodeBody(&body).ValidateBody().ParamInt64(p, "a", &x).ParamInt64(p, "b", &y)`
on a body that sets `value` to `a` and the route matched against `/1/2`. -/
def successState : State TestObject :=
  chainState [.DecodeBody (some 10), .ValidateBody, .ParamInt64 paramsTwo "a" 0,
    .ParamInt64 paramsTwo "b" 1]

/-- The pipeline `Request(r).DecodeBody(&body).ParamInt64(p, "id", &id)` on
the body `x` and the route `/:id` matched against `/1`. -/
def malformedWithParamState : State TestObject :=
  exampleState (configure (Request exampleGlobals (exampleRequest "" "x"))
    [.DecodeBody (some 10), .ParamInt64 paramsOne "id" 0])

/-- A fresh `httptest.NewRecorder()`. -/
def NewRecorder : ResponseWriter := { Code := none, Body := "" }

/-- The request of `Test_ResponseDataError`: `GET /` from `127.0.0.1`, empty body. -/
def getRequest : HttpRequest :=
  { RemoteAddr := "127.0.0.1", Method := "GET", URL := "/",
    basicAuth := ("", "", false), Body := { data := "", fail := none } }

/-- The error of `Test_ResponseDataError`. -/
def noLove : requestError := NewError "No love in here" (some "Love me hard")

/-- A producer that succeeds with the value `v` and counts its calls in the
caller's state. -/
def countingProducer : Nat → (TestObject × Option requestError) × Nat :=
  fun calls => (({ Value := "v" }, none), calls + 1)

/-- A producer that fails with the error of `Test_ResponseDataError` and
counts its calls. -/
def failingProducer : Nat → (TestObject × Option requestError) × Nat :=
  fun calls => (({ Value := "" }, some noLove), calls + 1)

/-- The text `t` occurs in the text `s`. -/
def containsText (s t : String) : Prop := ∃ a b : String, s = a ++ t ++ b

/-- A predicate that rejects everybody with the error `user`. -/
def rejectWithText : authFunc := fun _ _ => (false, some "user")

/-- The pipeline `Request(r).BaseAuth(rejectWithText)` for the user `Deadpool`. -/
def rejectTextState : State TestObject := chainState [.BaseAuth rejectWithText]

/-- The pipeline `Request(r).ValidateBody()`: validation asked for, no
decode target. -/
def validateOnlyState : State TestObject := chainState [.ValidateBody]

/-- The request of `Test_LogRequestManual`. -/
def testBodyRequest : HttpRequest := exampleRequest "" "test body"

/-- A stand-in for the digest in the examples: the first 20 bytes. -/
def exampleSum : List Nat → List Nat := fun rb => rb.take 20

/-- A draw of the secure source that fills the buffer with zeros. -/
def zeroDraw : Entropy :=
  { crandBytes := List.replicate 500 0, crandN := 500, crandErr := none, perm := [] }

/-- A draw of the secure source that fills the buffer with ones. -/
def oneDraw : Entropy :=
  { crandBytes := List.replicate 500 1, crandN := 500, crandErr := none, perm := [] }

/-- The `Params` of the route `/:id` matched against `/7`. -/
def paramsSeven : ParamData := .httprouterParams [("id", "7")]

/-- The `Params` of a route `/:a/:b` matched against `/1/x`. -/
def paramsOneX : ParamData := .httprouterParams [("a", "1"), ("b", "x")]

/-- The pipeline `DecodeBody(&m).ParamInt64(p, "id", &m.ID)` on a body that
sets `id` to 5 and the route `/:id` matched against `/7`: the destination is
a field of the decode target. -/
def fieldDestinationState : State TestObject :=
  exampleState
    (configure (Request exampleGlobals
        (exampleRequest "Deadpool" "\x7b\"id\": 5, \"value\": \"a\"\x7d"))
      [.DecodeBody (some 10), .ParamInt64 paramsSeven "id" 11])

/-- The same pipeline on a body that sets `id` to 5 and `value` to a number. -/
def fieldDestinationMismatchState : State TestObject :=
  exampleState
    (configure (Request exampleGlobals
        (exampleRequest "Deadpool" "\x7b\"id\": 5, \"value\": 7\x7d"))
      [.DecodeBody (some 10), .ParamInt64 paramsSeven "id" 11])

/-- Two parameters registered with one and the same destination, the first
resolving to 1, the second not an integer:
`ParamInt64(p, "a", &id).ParamInt64(p, "b", &id)` on `/1/x`. -/
def sharedThenTextState : State TestObject :=
  chainState [.ParamInt64 paramsOneX "a" 0, .ParamInt64 paramsOneX "b" 0]

/-- Two parameters registered with one and the same destination, the first
resolving to 1, the second with a `nil` source:
`ParamInt64(p, "id", &id).ParamInt64(nil, "id", &id)` on `/1`. -/
def sharedThenNilStoreState : State TestObject :=
  chainState [.ParamInt64 paramsOne "id" 0, .ParamInt64 (.other true) "id" 0]

/-- The pipeline `DecodeBody(&m).ParamInt64(p, "id", &m.ID)` on a body that
sets `id` to 5 and the route `/:id` matched against `/a`. -/
def fieldDestinationTextState : State TestObject :=
  exampleState
    (configure (Request exampleGlobals
        (exampleRequest "Deadpool" "\x7b\"id\": 5, \"value\": \"a\"\x7d"))
      [.DecodeBody (some 10), .ParamInt64 paramsA "id" 11])

/-- The pipeline `DecodeBody(&m).ParamInt64(nil, "id", &m.ID)` on a body that
sets `id` to 5. -/
def fieldDestinationNilStoreState : State TestObject :=
  exampleState
    (configure (Request exampleGlobals
        (exampleRequest "Deadpool" "\x7b\"id\": 5, \"value\": \"a\"\x7d"))
      [.DecodeBody (some 10), .ParamInt64 (.other true) "id" 11])

/-! ## Theorems -/

/-! ### The stages of `Process` -/

theorem auth_eq_none_iff (r : request) :
    auth r = none ↔
      r.authFunc r.httpRequest.basicAuth.1 r.httpRequest.basicAuth.2.1 = (true, none) := by
  simp only [auth]
  rcases r.authFunc r.httpRequest.basicAuth.1 r.httpRequest.basicAuth.2.1 with ⟨ok, err⟩
  cases ok <;> cases err <;> simp

theorem setBody_bodyObject (r : request) : (setBody r).2.bodyObject = r.bodyObject := by
  simp only [setBody, ReadAll]
  split <;> rfl

theorem setBody_paramsInt64 (r : request) : (setBody r).2.paramsInt64 = r.paramsInt64 := by
  simp only [setBody, ReadAll]
  split <;> rfl

theorem setBody_enableValidateBody (r : request) :
    (setBody r).2.enableValidateBody = r.enableValidateBody := by
  simp only [setBody, ReadAll]
  split <;> rfl

theorem setBody_body_of_read_ok (r : request) (h : r.httpRequest.Body.fail = none) :
    (setBody r).2.body = r.httpRequest.Body.data := by
  unfold setBody ReadAll
  simp only [h]

theorem Process_decode_fail {Obj : Type} (lib : Lib Obj) (g : Globals) (s : State Obj)
    (err : requestError) (m1 : Mem Obj) (h : auth s.r = none)
    (hd : decodeStage lib g (setBody s.r).2 s.mem = (some err, m1)) :
    Process lib g s =
      (some err, { r := (setBody s.r).2, mem := m1,
                   log := s.log ++ [logRequest (setBody s.r).2] }) := by
  unfold Process
  rw [h]
  simp only [hd]

theorem Process_decode_ok {Obj : Type} (lib : Lib Obj) (g : Globals) (s : State Obj)
    (m1 : Mem Obj) (h : auth s.r = none)
    (hd : decodeStage lib g (setBody s.r).2 s.mem = (none, m1)) :
    Process lib g s =
      ((queryAll lib (setBody s.r).2.paramsInt64 m1).1,
       { r := (setBody s.r).2, mem := (queryAll lib (setBody s.r).2.paramsInt64 m1).2,
         log := s.log ++ [logRequest (setBody s.r).2] }) := by
  unfold Process
  rw [h]
  simp only [hd]
  rcases queryAll lib (setBody s.r).2.paramsInt64 m1 with ⟨e, m2⟩
  cases e <;> rfl

theorem validationMessage_eq_join (errs : List FieldError) :
    validationMessage errs =
      String.join (errs.map fun v => v.Field ++ " failed due to " ++ v.Tag) := by
  unfold validationMessage String.join
  rw [List.foldl_map]

/-! ### Authentication (C2) -/

/-- C2: when the authentication predicate, applied to the Basic-auth user
name and password of the request, returns false or returns an error,
`Process` returns an error whose message is `Unauthorized user ` followed
by the user name and whose cause is the predicate's error, and the whole
state is as before the call: the body reader is untouched, no log entry is
added, no decode target and no parameter destination is written, whatever
else was configured. -/
theorem Process_unauthorized {Obj : Type} (lib : Lib Obj) (g : Globals) (s : State Obj)
    (h : (s.r.authFunc s.r.httpRequest.basicAuth.1 s.r.httpRequest.basicAuth.2.1).1 = false ∨
      (s.r.authFunc s.r.httpRequest.basicAuth.1 s.r.httpRequest.basicAuth.2.1).2 ≠ none) :
    ∃ err : requestError,
      Process lib g s = (some err, s) ∧
      err.Message = "Unauthorized user " ++ s.r.httpRequest.basicAuth.1 ∧
      err.err = (s.r.authFunc s.r.httpRequest.basicAuth.1 s.r.httpRequest.basicAuth.2.1).2 := by
  refine ⟨NewError ("Unauthorized user " ++ s.r.httpRequest.basicAuth.1)
    (s.r.authFunc s.r.httpRequest.basicAuth.1 s.r.httpRequest.basicAuth.2.1).2, ?_, rfl, rfl⟩
  have ha : auth s.r = some (NewError ("Unauthorized user " ++ s.r.httpRequest.basicAuth.1)
      (s.r.authFunc s.r.httpRequest.basicAuth.1 s.r.httpRequest.basicAuth.2.1).2) := by
    unfold auth
    simp only [if_pos h]
  unfold Process
  rw [ha]

/-- C2 at the user `Deadpool` with logging, decoding, validation and one
parameter configured and a predicate that rejects. -/
theorem Process_unauthorized_witness :
    ∃ err : requestError,
      Process exampleLib exampleGlobals unauthorizedState = (some err, unauthorizedState) ∧
      err.Message = "Unauthorized user Deadpool" ∧ err.err = none :=
  Process_unauthorized exampleLib exampleGlobals unauthorizedState (Or.inl rfl)

/-! ### Body capture (C3) -/

/-- C3: on a request whose body reader fails, `setBody` builds the Body-Read
error, yet `Process` returns no error and goes on to the logging stage: the
value `setBody` returns is not looked at. -/
theorem Process_ignores_body_read_error :
    (setBody brokenBodyState.r).1 =
        some (NewError "Error while reading Process Body" (some "unexpected EOF")) ∧
      (Process exampleLib exampleGlobals brokenBodyState).1 = none ∧
      (Process exampleLib exampleGlobals brokenBodyState).2.log.length = 1 := by
  refine ⟨rfl, rfl, rfl⟩

/-! ### Decoding (C4) -/

/-- C4, as stated, fails: on the body `x` with a decode target registered
the message is not `cannot parse JSON body`. -/
theorem Process_malformed_body_counterexample :
    auth malformedBodyState.r = none ∧
      malformedBodyState.r.bodyObject = some 10 ∧
      malformedBodyState.r.httpRequest.Body = { data := "x", fail := none } ∧
      exampleLib.checkValid "x" ≠ none ∧
      (Process exampleLib exampleGlobals malformedBodyState).1.map requestError.Message
        = some "Error cannot parse JSON body" ∧
      (Process exampleLib exampleGlobals malformedBodyState).1.map requestError.Message
        ≠ some "cannot parse JSON body" := by
  refine ⟨rfl, rfl, rfl, by decide, rfl, by decide⟩

/-- C4, amended: for every request that passes authentication, has a
decode target registered and whose body is not valid JSON,
`Process` fails with an error whose message is exactly
`Error cannot parse JSON body` and whose cause is the syntax error, and the
decode target, like the rest of the caller's variables, is unmodified. -/
theorem Process_malformed_body {Obj : Type} (lib : Lib Obj) (g : Globals) (s : State Obj)
    (a : Nat) (e : String)
    (hauth : auth s.r = none)
    (htarget : s.r.bodyObject = some a)
    (hread : s.r.httpRequest.Body.fail = none)
    (hbody : lib.checkValid s.r.httpRequest.Body.data = some e) :
    ∃ err : requestError,
      (Process lib g s).1 = some err ∧
      err.Message = "Error cannot parse JSON body" ∧
      err.err = some e ∧
      (Process lib g s).2.mem = s.mem := by
  have hd : decodeStage lib g (setBody s.r).2 s.mem =
      (some (NewError "Error cannot parse JSON body" (some e)), s.mem) := by
    unfold decodeStage decodeBody jsonUnmarshal
    rw [setBody_bodyObject, htarget, setBody_body_of_read_ok _ hread, hbody]
  rw [Process_decode_fail lib g s _ _ hauth hd]
  exact ⟨_, rfl, rfl, rfl, rfl⟩

/-- C4, amended, at the body `x`. -/
theorem Process_malformed_body_witness :
    ∃ err : requestError,
      (Process exampleLib exampleGlobals malformedBodyState).1 = some err ∧
      err.Message = "Error cannot parse JSON body" ∧
      err.err = some "invalid character 'x' looking for beginning of value" ∧
      (Process exampleLib exampleGlobals malformedBodyState).2.mem = malformedBodyState.mem :=
  Process_malformed_body exampleLib exampleGlobals malformedBodyState 10
    "invalid character 'x' looking for beginning of value" rfl rfl rfl rfl

/-! ### Validation (C5) -/

/-- C5: when validation is enabled, the body decodes into the target and
the validator reports the failing fields `errs`, `Process` returns one error
whose message is the concatenation, in report order and with nothing in
between, of the fragments `<Field> failed due to <Rule>`; for the single
failing field `Value` under `required` it is `Value failed due to required`,
and for two failing fields it is the first fragment followed by the second. -/
theorem Process_validation_message {Obj : Type} (lib : Lib Obj) (g : Globals) (s : State Obj)
    (a : Nat) (errs : List FieldError)
    (hauth : auth s.r = none)
    (htarget : s.r.bodyObject = some a)
    (hvalidate : s.r.enableValidateBody = true)
    (hread : s.r.httpRequest.Body.fail = none)
    (hdecode : (jsonUnmarshal lib s.r.httpRequest.Body.data a s.mem).2 = none)
    (hviolated : lib.validate g.ValidatorTagName a
      (jsonUnmarshal lib s.r.httpRequest.Body.data a s.mem).1 = some errs) :
    ∃ err : requestError,
      (Process lib g s).1 = some err ∧
      err.Message = String.join (errs.map fun v => v.Field ++ " failed due to " ++ v.Tag) ∧
      (errs = [{ Field := "Value", Tag := "required" }] →
        err.Message = "Value failed due to required") ∧
      (∀ v w : FieldError, errs = [v, w] →
        err.Message = (v.Field ++ " failed due to " ++ v.Tag) ++
          (w.Field ++ " failed due to " ++ w.Tag)) := by
  have hd : decodeStage lib g (setBody s.r).2 s.mem =
      (some (NewError (validationMessage errs) (some (validationMessage errs))),
       (jsonUnmarshal lib s.r.httpRequest.Body.data a s.mem).1) := by
    unfold decodeStage decodeBody validateBody
    rw [setBody_bodyObject, htarget, setBody_body_of_read_ok _ hread,
      setBody_enableValidateBody, hvalidate]
    simp [hdecode, hviolated]
  rw [Process_decode_fail lib g s _ _ hauth hd]
  refine ⟨_, rfl, validationMessage_eq_join errs, ?_, ?_⟩
  · intro h
    subst h
    rfl
  · intro v w h
    subst h
    simp [requestError.Message, NewError, validationMessage]

/-- C5 at a body whose `value` is empty (`Test_ValidateBodyError`). -/
theorem Process_validation_message_witness :
    ∃ err : requestError,
      (Process exampleLib exampleGlobals emptyValueState).1 = some err ∧
      err.Message = "Value failed due to required" := by
  obtain ⟨err, h1, _, h3, _⟩ :=
    Process_validation_message exampleLib exampleGlobals emptyValueState 10
      [{ Field := "Value", Tag := "required" }] rfl rfl rfl rfl rfl rfl
  exact ⟨err, h1, h3 rfl⟩

/-! ### `strconv.ParseInt` computes the integer the text denotes -/

theorem digit_le_nine (d : Char) (h : '0' ≤ d ∧ d ≤ '9') : d.toNat - '0'.toNat ≤ 9 := by
  obtain ⟨h0, h9⟩ := h
  have h9' : d.toNat ≤ '9'.toNat := h9
  have : '9'.toNat = 57 := rfl
  have : '0'.toNat = 48 := rfl
  omega

theorem le_decimalValueFrom (ds : List Char) (n : Nat) : n ≤ decimalValueFrom ds n := by
  induction ds generalizing n with
  | nil => exact Nat.le_refl n
  | cons d ds ih =>
    have := ih (10 * n + (d.toNat - '0'.toNat))
    simp only [decimalValueFrom, List.foldl_cons] at this ⊢
    omega

theorem parseUintLoop_ok (ds : List Char) (n : Nat)
    (hd : ∀ d ∈ ds, '0' ≤ d ∧ d ≤ '9') (h : decimalValueFrom ds n ≤ maxUint64) :
    parseUintLoop ds n = .ok (decimalValueFrom ds n) := by
  induction ds generalizing n with
  | nil => rfl
  | cons d ds ih =>
    have hdig := hd d (List.mem_cons_self _ _)
    have hv := digit_le_nine d hdig
    have hle := le_decimalValueFrom ds (10 * n + (d.toNat - '0'.toNat))
    have hstep : decimalValueFrom (d :: ds) n =
        decimalValueFrom ds (10 * n + (d.toNat - '0'.toNat)) := rfl
    rw [hstep] at h ⊢
    have hmax : maxUint64 = 18446744073709551615 := by decide
    rw [hmax] at h
    unfold parseUintLoop
    simp only [hdig, and_self, if_true, hmax]
    have h1 : ¬ (n ≥ 18446744073709551615 / 10 + 1) := by omega
    have h2 : (n * 10) % 2 ^ 64 = n * 10 := by omega
    have h3 : (n * 10 + (d.toNat - '0'.toNat)) % 2 ^ 64 = n * 10 + (d.toNat - '0'.toNat) := by
      omega
    simp only [h1, if_false, h2, h3]
    have h4 : ¬ (n * 10 + (d.toNat - '0'.toNat) < n * 10 ∨
        n * 10 + (d.toNat - '0'.toNat) > 18446744073709551615) := by omega
    simp only [h4, if_false]
    have h5 : n * 10 + (d.toNat - '0'.toNat) = 10 * n + (d.toNat - '0'.toNat) := by omega
    rw [h5]
    apply ih
    · exact fun x hx => hd x (List.mem_cons_of_mem _ hx)
    · rw [hmax]; exact h
theorem parseUintLoop_range (ds : List Char) (n : Nat)
    (hd : ∀ d ∈ ds, '0' ≤ d ∧ d ≤ '9') (hn : n ≤ maxUint64)
    (h : maxUint64 < decimalValueFrom ds n) :
    parseUintLoop ds n = .error .ErrRange := by
  induction ds generalizing n with
  | nil =>
    simp only [decimalValueFrom, List.foldl_nil] at h
    omega
  | cons d ds ih =>
    have hdig := hd d (List.mem_cons_self _ _)
    have hv := digit_le_nine d hdig
    have hstep : decimalValueFrom (d :: ds) n =
        decimalValueFrom ds (10 * n + (d.toNat - '0'.toNat)) := rfl
    rw [hstep] at h
    have hmax : maxUint64 = 18446744073709551615 := by decide
    rw [hmax] at h hn
    unfold parseUintLoop
    simp only [hdig, and_self, if_true, hmax]
    by_cases h1 : n ≥ 18446744073709551615 / 10 + 1
    · simp only [h1, if_true]
    · simp only [h1, if_false]
      have h2 : (n * 10) % 2 ^ 64 = n * 10 := by omega
      simp only [h2]
      by_cases h3 : n * 10 + (d.toNat - '0'.toNat) > 18446744073709551615
      · have h4 : (n * 10 + (d.toNat - '0'.toNat)) % 2 ^ 64 < n * 10 := by omega
        simp only [h4, true_or, if_true]
      · have h4 : (n * 10 + (d.toNat - '0'.toNat)) % 2 ^ 64 =
            n * 10 + (d.toNat - '0'.toNat) := by omega
        have h5 : ¬ (n * 10 + (d.toNat - '0'.toNat) < n * 10 ∨
            n * 10 + (d.toNat - '0'.toNat) > 18446744073709551615) := by omega
        simp only [h4, h5, if_false]
        have h6 : n * 10 + (d.toNat - '0'.toNat) = 10 * n + (d.toNat - '0'.toNat) := by omega
        rw [h6]
        apply ih
        · exact fun x hx => hd x (List.mem_cons_of_mem _ hx)
        · rw [hmax]; omega
        · rw [hmax]; exact h

theorem parseUintLoop_not_digit (ds : List Char) (n : Nat)
    (hd : ¬ ∀ d ∈ ds, '0' ≤ d ∧ d ≤ '9') :
    ∃ e, parseUintLoop ds n = .error e := by
  induction ds generalizing n with
  | nil => exact absurd (fun d hd => absurd hd (List.not_mem_nil d)) hd
  | cons d ds ih =>
    unfold parseUintLoop
    by_cases hdig : '0' ≤ d ∧ d ≤ '9'
    · have hrest : ¬ ∀ x ∈ ds, '0' ≤ x ∧ x ≤ '9' := by
        intro hall
        apply hd
        intro x hx
        rcases List.mem_cons.mp hx with rfl | hx
        · exact hdig
        · exact hall x hx
      simp only [hdig, and_self, if_true]
      split
      · exact ⟨_, rfl⟩
      · split
        · exact ⟨_, rfl⟩
        · exact ih _ hrest
    · simp only [hdig, if_false]
      exact ⟨_, rfl⟩

theorem ParseUint_ok (ds : List Char) (hne : ds ≠ [])
    (hd : ∀ d ∈ ds, '0' ≤ d ∧ d ≤ '9') (h : decimalValueFrom ds 0 ≤ maxUint64) :
    ParseUint ds = .ok (decimalValueFrom ds 0) := by
  unfold ParseUint
  rw [if_neg hne]
  exact parseUintLoop_ok ds 0 hd h

theorem ParseInt_ok_iff (s : String) (i : Int) :
    ParseInt s = .ok i ↔ decimalInt64 s = some i := by
  unfold ParseInt decimalInt64
  cases s.toList with
  | nil => simp
  | cons c cs =>
    simp only
    generalize hdigits : (if c = '+' ∨ c = '-' then cs else c :: cs) = digits
    by_cases hne : digits = []
    · simp [ParseUint, hne]
    · by_cases hd : ∀ d ∈ digits, '0' ≤ d ∧ d ≤ '9'
      · have hmax : maxUint64 = 18446744073709551615 := by decide
        by_cases hle : decimalValueFrom digits 0 ≤ maxUint64
        · rw [ParseUint_ok digits hne hd hle]
          simp only [hne, hd, not_false_eq_true, and_self, if_true, ne_eq]
          rw [hmax] at hle
          by_cases hneg : c = '-'
          · simp only [hneg, not_true_eq_false, false_and, if_false, true_and, if_true]
            by_cases hr : 9223372036854775808 < decimalValueFrom digits 0
            · have hr2 : decimalValueFrom digits 0 > 2 ^ 63 := by omega
              have h3 : ¬ (- (2 : Int) ^ 63 ≤ - (decimalValueFrom digits 0 : Int) ∧
                  - (decimalValueFrom digits 0 : Int) ≤ 2 ^ 63 - 1) := by omega
              rw [if_pos hr2, if_neg h3]
              simp
            · have hr2 : ¬ decimalValueFrom digits 0 > 2 ^ 63 := by omega
              have h3 : (- (2 : Int) ^ 63 ≤ - (decimalValueFrom digits 0 : Int) ∧
                  - (decimalValueFrom digits 0 : Int) ≤ 2 ^ 63 - 1) := by omega
              rw [if_neg hr2, if_pos h3]
              simp
              exact fun _ => hd
          · simp only [hneg, not_false_eq_true, true_and, false_and, if_false]
            by_cases hr : 9223372036854775808 ≤ decimalValueFrom digits 0
            · have hr2 : decimalValueFrom digits 0 ≥ 2 ^ 63 := by omega
              have h3 : ¬ (- (2 : Int) ^ 63 ≤ (decimalValueFrom digits 0 : Int) ∧
                  (decimalValueFrom digits 0 : Int) ≤ 2 ^ 63 - 1) := by omega
              rw [if_pos hr2, if_neg h3]
              simp
            · have hr2 : ¬ decimalValueFrom digits 0 ≥ 2 ^ 63 := by omega
              have h3 : (- (2 : Int) ^ 63 ≤ (decimalValueFrom digits 0 : Int) ∧
                  (decimalValueFrom digits 0 : Int) ≤ 2 ^ 63 - 1) := by omega
              rw [if_neg hr2, if_pos h3]
              simp
              exact fun _ => hd
        · have hgt : maxUint64 < decimalValueFrom digits 0 := Nat.lt_of_not_le hle
          have hr : ParseUint digits = .error .ErrRange := by
            unfold ParseUint
            rw [if_neg hne]
            exact parseUintLoop_range digits 0 hd (Nat.zero_le _) hgt
          rw [hr]
          rw [hmax] at hgt
          have h1 : ¬ (- (2 : Int) ^ 63 ≤ - (decimalValueFrom digits 0 : Int) ∧
              - (decimalValueFrom digits 0 : Int) ≤ 2 ^ 63 - 1) := by omega
          have h2 : ¬ (- (2 : Int) ^ 63 ≤ (decimalValueFrom digits 0 : Int) ∧
              (decimalValueFrom digits 0 : Int) ≤ 2 ^ 63 - 1) := by omega
          by_cases hneg : c = '-' <;> simp [hne, hd, hneg, h1, h2] <;> intros <;> omega
      · obtain ⟨e, he⟩ : ∃ e, ParseUint digits = .error e := by
          unfold ParseUint
          rw [if_neg hne]
          exact parseUintLoop_not_digit digits 0 hd
        rw [he]
        cases e <;> simp [hd]

/-- A letter, the empty text found under an absent name and the first
integer above the range denote nothing; the lowest integer of the range and
`1` denote themselves. -/
theorem decimalInt64_examples :
    decimalInt64 "a" = none ∧ decimalInt64 "" = none ∧
      decimalInt64 "9223372036854775808" = none ∧
      decimalInt64 "-9223372036854775808" = some (-9223372036854775808) ∧
      decimalInt64 "1" = some 1 ∧ ByName [("id", "1")] "name" = "" := by
  refine ⟨by decide, by decide, by decide, by decide, by decide, by decide⟩

theorem ParseInt_error_of_not_decimal (s : String) (h : decimalInt64 s = none) :
    ∃ e, ParseInt s = .error e := by
  cases hp : ParseInt s with
  | error e => exact ⟨e, rfl⟩
  | ok i =>
    rw [(ParseInt_ok_iff s i).mp hp] at h
    exact absurd h (by simp)

theorem paramValue_eq_decimalInt64 (v : paramInt64) (ps : List (String × String))
    (h : v.data = .httprouterParams ps ∨ v.data = .ginParams ps) :
    paramValue v = decimalInt64 (ByName ps v.name) := by
  unfold paramValue
  have key : (match ParseInt (ByName ps v.name) with
      | .ok i => some i
      | .error _ => none) = decimalInt64 (ByName ps v.name) := by
    cases hp : ParseInt (ByName ps v.name) with
    | ok i => exact ((ParseInt_ok_iff _ i).mp hp).symm
    | error e =>
      cases hd : decimalInt64 (ByName ps v.name) with
      | none => rfl
      | some i =>
        rw [(ParseInt_ok_iff _ i).mpr hd] at hp
        exact absurd hp (by simp)
  rcases h with h | h <;> rw [h] <;> exact key

/-! ### Parameter extraction (C6, C7) -/

theorem queryParams_of_ok {Obj : Type} (lib : Lib Obj) (ps : List (String × String))
    (v : paramInt64) (m : Mem Obj) (i : Int) (h : ParseInt (ByName ps v.name) = .ok i) :
    queryParams lib ps v m = (none, Function.update m v.i64 (Cell.int64 i)) := by
  simp only [queryParams, h]

theorem queryParams_of_error {Obj : Type} (lib : Lib Obj) (ps : List (String × String))
    (v : paramInt64) (m : Mem Obj) (e : NumErr) (h : ParseInt (ByName ps v.name) = .error e) :
    queryParams lib ps v m =
      (some (NewError ("Error cannot find int64 parameter " ++ v.name)
        (some (numErrorText lib (ByName ps v.name) e))), m) := by
  simp only [queryParams, h]

theorem queryParamInt64_of_value {Obj : Type} (lib : Lib Obj) (v : paramInt64) (m : Mem Obj)
    (i : Int) (h : paramValue v = some i) :
    queryParamInt64 lib v m = (none, Function.update m v.i64 (Cell.int64 i)) := by
  unfold paramValue at h
  unfold queryParamInt64
  cases hv : v.data with
  | httprouterParams ps =>
    rw [hv] at h
    simp only at h ⊢
    cases hp : ParseInt (ByName ps v.name) with
    | error e => rw [hp] at h; exact absurd h (by simp)
    | ok j =>
      rw [hp] at h
      simp only [Option.some.injEq] at h
      subst h
      exact queryParams_of_ok lib ps v m j hp
  | ginParams ps =>
    rw [hv] at h
    simp only at h ⊢
    cases hp : ParseInt (ByName ps v.name) with
    | error e => rw [hp] at h; exact absurd h (by simp)
    | ok j =>
      rw [hp] at h
      simp only [Option.some.injEq] at h
      subst h
      exact queryParams_of_ok lib ps v m j hp
  | other b =>
    rw [hv] at h
    exact absurd h (by simp)

theorem queryParamInt64_of_no_value {Obj : Type} (lib : Lib Obj) (v : paramInt64) (m : Mem Obj)
    (h : paramValue v = none) :
    ∃ err, queryParamInt64 lib v m = (some err, m) := by
  unfold paramValue at h
  unfold queryParamInt64
  cases hv : v.data with
  | httprouterParams ps =>
    rw [hv] at h
    simp only at h ⊢
    cases hp : ParseInt (ByName ps v.name) with
    | error e => exact ⟨_, queryParams_of_error lib ps v m e hp⟩
    | ok j => rw [hp] at h; exact absurd h (by simp)
  | ginParams ps =>
    rw [hv] at h
    simp only at h ⊢
    cases hp : ParseInt (ByName ps v.name) with
    | error e => exact ⟨_, queryParams_of_error lib ps v m e hp⟩
    | ok j => rw [hp] at h; exact absurd h (by simp)
  | other b => exact ⟨_, rfl⟩

theorem queryParamInt64_of_ne {Obj : Type} (lib : Lib Obj) (v : paramInt64) (m : Mem Obj)
    (a : Nat) (h : v.i64 ≠ a) : (queryParamInt64 lib v m).2 a = m a := by
  cases hv : paramValue v with
  | none =>
    obtain ⟨err, he⟩ := queryParamInt64_of_no_value lib v m hv
    rw [he]
  | some i =>
    rw [queryParamInt64_of_value lib v m i hv]
    exact Function.update_noteq (Ne.symm h) _ _

theorem queryAll_cons_of_value {Obj : Type} (lib : Lib Obj) (v : paramInt64)
    (vs : List paramInt64) (m : Mem Obj) (i : Int) (h : paramValue v = some i) :
    queryAll lib (v :: vs) m = queryAll lib vs (Function.update m v.i64 (Cell.int64 i)) := by
  rw [queryAll, queryParamInt64_of_value lib v m i h]

theorem queryAll_cons_of_no_value {Obj : Type} (lib : Lib Obj) (v : paramInt64)
    (vs : List paramInt64) (m : Mem Obj) (h : paramValue v = none) :
    queryAll lib (v :: vs) m = queryParamInt64 lib v m := by
  obtain ⟨err, he⟩ := queryParamInt64_of_no_value lib v m h
  rw [queryAll, he]

theorem queryAll_append {Obj : Type} (lib : Lib Obj) (pre rest : List paramInt64) (m : Mem Obj)
    (h : (queryAll lib pre m).1 = none) :
    queryAll lib (pre ++ rest) m = queryAll lib rest (queryAll lib pre m).2 := by
  induction pre generalizing m with
  | nil => rfl
  | cons u us ih =>
    cases hu : paramValue u with
    | none =>
      obtain ⟨err, he⟩ := queryParamInt64_of_no_value lib u m hu
      rw [queryAll_cons_of_no_value lib u us m hu, he] at h
      exact absurd h (by simp)
    | some i =>
      rw [queryAll_cons_of_value lib u us m i hu] at h
      rw [List.cons_append, queryAll_cons_of_value lib u _ m i hu,
        queryAll_cons_of_value lib u us m i hu]
      exact ih _ h

theorem queryAll_of_not_mem {Obj : Type} (lib : Lib Obj) (l : List paramInt64)
    (m : Mem Obj) (a : Nat) (h : ∀ u ∈ l, u.i64 ≠ a) :
    (queryAll lib l m).2 a = m a := by
  induction l generalizing m with
  | nil => rfl
  | cons u us ih =>
    have hu : u.i64 ≠ a := h u (List.mem_cons_self _ _)
    have hus : ∀ w ∈ us, w.i64 ≠ a := fun w hw => h w (List.mem_cons_of_mem _ hw)
    cases hv : paramValue u with
    | none =>
      rw [queryAll_cons_of_no_value lib u us m hv]
      exact queryParamInt64_of_ne lib u m a hu
    | some i =>
      rw [queryAll_cons_of_value lib u us m i hv, ih _ hus]
      exact Function.update_noteq (Ne.symm hu) _ _

theorem Process_first_failing_param {Obj : Type} (lib : Lib Obj) (g : Globals) (s : State Obj)
    (m1 : Mem Obj) (pre post : List paramInt64) (v : paramInt64) (err : requestError)
    (hauth : auth s.r = none)
    (hdecode : decodeStage lib g (setBody s.r).2 s.mem = (none, m1))
    (hparams : s.r.paramsInt64 = pre ++ v :: post)
    (hpre : (queryAll lib pre m1).1 = none)
    (hv : queryParamInt64 lib v (queryAll lib pre m1).2 = (some err, (queryAll lib pre m1).2)) :
    Process lib g s =
      (some err, { r := (setBody s.r).2, mem := (queryAll lib pre m1).2,
                   log := s.log ++ [logRequest (setBody s.r).2] }) := by
  have hq : queryAll lib (pre ++ v :: post) m1 = (some err, (queryAll lib pre m1).2) := by
    rw [queryAll_append lib pre (v :: post) m1 hpre, queryAll, hv]
  rw [Process_decode_ok lib g s m1 hauth hdecode, setBody_paramsInt64, hparams, hq]

/-- C6, as stated, fails in two ways. When an earlier parameter shares the
destination: of two parameters registered with the same destination the
first resolves to 1 and the second, whose text `x` is no integer, fails;
`Process` returns the Param error of the second, and its destination went
from 0 to 1. When the destination is a field of the decode target: on a body
that sets `id` to 5 the parameter `id`, whose text `a` is no integer, fails,
and its destination `&m.ID` went from 0 to 5. -/
theorem Process_param_not_int64_counterexample :
    (auth sharedThenTextState.r = none ∧
      sharedThenTextState.r.bodyObject = none ∧
      sharedThenTextState.r.paramsInt64 =
        [{ data := paramsOneX, name := "a", i64 := 0 },
         { data := paramsOneX, name := "b", i64 := 0 }] ∧
      decimalInt64 (ByName [("a", "1"), ("b", "x")] "a") = some 1 ∧
      decimalInt64 (ByName [("a", "1"), ("b", "x")] "b") = none ∧
      (Process exampleLib exampleGlobals sharedThenTextState).1.map requestError.Message
        = some "Error cannot find int64 parameter b" ∧
      sharedThenTextState.mem 0 = Cell.int64 0 ∧
      (Process exampleLib exampleGlobals sharedThenTextState).2.mem 0 = Cell.int64 1) ∧
    (auth fieldDestinationTextState.r = none ∧
      fieldDestinationTextState.r.bodyObject = some 10 ∧
      fieldDestinationTextState.r.paramsInt64 =
        [{ data := paramsA, name := "id", i64 := 11 }] ∧
      decimalInt64 (ByName [("id", "a")] "id") = none ∧
      (Process exampleLib exampleGlobals fieldDestinationTextState).1.map requestError.Message
        = some "Error cannot find int64 parameter id" ∧
      fieldDestinationTextState.mem 11 = Cell.int64 0 ∧
      (Process exampleLib exampleGlobals fieldDestinationTextState).2.mem 11 = Cell.int64 5) := by
  refine ⟨⟨rfl, rfl, rfl, by decide, by decide, rfl, rfl, rfl⟩,
    rfl, rfl, rfl, by decide, rfl, rfl, rfl⟩

/-- C6, amended: a registered parameter with a recognised source
(`httprouter.Params` or `gin.Params`) whose value under its name is not the
base-10 text of an integer in the range `-2^63 .. 2^63-1`, reached by
`Process` (authentication, decoding, validation and the parameters
registered before it succeed), makes `Process` fail with an error whose
message is exactly `Error cannot find int64 parameter ` followed by the
parameter name. Resolving it writes nothing: the memory is as the earlier
stages left it, so its destination holds what the decode stage left there
when no earlier parameter shares it, and its value from before the call when
moreover the decoder did not write it. -/
theorem Process_param_not_int64 {Obj : Type} (lib : Lib Obj) (g : Globals) (s : State Obj)
    (m1 : Mem Obj) (pre post : List paramInt64) (v : paramInt64)
    (ps : List (String × String))
    (hauth : auth s.r = none)
    (hdecode : decodeStage lib g (setBody s.r).2 s.mem = (none, m1))
    (hparams : s.r.paramsInt64 = pre ++ v :: post)
    (hpre : (queryAll lib pre m1).1 = none)
    (hsource : v.data = .httprouterParams ps ∨ v.data = .ginParams ps)
    (htext : decimalInt64 (ByName ps v.name) = none) :
    ∃ err : requestError,
      (Process lib g s).1 = some err ∧
      err.Message = "Error cannot find int64 parameter " ++ v.name ∧
      (Process lib g s).2.mem = (queryAll lib pre m1).2 ∧
      ((∀ u ∈ pre, u.i64 ≠ v.i64) → (Process lib g s).2.mem v.i64 = m1 v.i64) ∧
      ((∀ u ∈ pre, u.i64 ≠ v.i64) → m1 v.i64 = s.mem v.i64 →
        (Process lib g s).2.mem v.i64 = s.mem v.i64) := by
  obtain ⟨e, hparse⟩ := ParseInt_error_of_not_decimal _ htext
  have hv : ∀ m : Mem Obj, queryParamInt64 lib v m =
      (some (NewError ("Error cannot find int64 parameter " ++ v.name)
        (some (numErrorText lib (ByName ps v.name) e))), m) := by
    intro m
    unfold queryParamInt64
    rcases hsource with h | h <;> rw [h] <;> exact queryParams_of_error lib ps v m e hparse
  rw [Process_first_failing_param lib g s m1 pre post v _ hauth hdecode hparams hpre (hv _)]
  exact ⟨_, rfl, rfl, rfl, fun hfresh => queryAll_of_not_mem lib pre m1 v.i64 hfresh,
    fun hfresh hsame => (queryAll_of_not_mem lib pre m1 v.i64 hfresh).trans hsame⟩

/-- C6, amended, on the route `/:id` matched against `/a`, parameter `id`
(`Test_ParamInt64httprouterError`): the destination keeps its value 0. -/
theorem Process_param_not_int64_witness :
    ∃ err : requestError,
      (Process exampleLib exampleGlobals paramAState).1 = some err ∧
      err.Message = "Error cannot find int64 parameter id" ∧
      (Process exampleLib exampleGlobals paramAState).2.mem 0 = Cell.int64 0 := by
  obtain ⟨err, h1, h2, _, _, h5⟩ :=
    Process_param_not_int64 exampleLib exampleGlobals paramAState exampleMem [] []
      { data := paramsA, name := "id", i64 := 0 } [("id", "a")]
      rfl rfl rfl rfl (Or.inl rfl) (by decide)
  exact ⟨err, h1, h2, h5 (fun u hu => absurd hu (List.not_mem_nil u)) rfl⟩

/-- C7, as stated, fails in two ways. When an earlier parameter shares the
destination: the first parameter resolves to 1, the second has a `nil`
source and the same destination; `Process` returns the Unsupported-Source
error, and the destination of the second parameter went from 0 to 1. When
the destination is a field of the decode target: on a body that sets `id` to
5 the parameter with the `nil` source fails, and its destination `&m.ID`
went from 0 to 5. -/
theorem Process_unsupported_store_counterexample :
    (auth sharedThenNilStoreState.r = none ∧
      sharedThenNilStoreState.r.bodyObject = none ∧
      sharedThenNilStoreState.r.paramsInt64 =
        [{ data := paramsOne, name := "id", i64 := 0 },
         { data := .other true, name := "id", i64 := 0 }] ∧
      (Process exampleLib exampleGlobals sharedThenNilStoreState).1.map requestError.Message
        = some "Not supported parameter store" ∧
      sharedThenNilStoreState.mem 0 = Cell.int64 0 ∧
      (Process exampleLib exampleGlobals sharedThenNilStoreState).2.mem 0 = Cell.int64 1) ∧
    (auth fieldDestinationNilStoreState.r = none ∧
      fieldDestinationNilStoreState.r.bodyObject = some 10 ∧
      fieldDestinationNilStoreState.r.paramsInt64 =
        [{ data := .other true, name := "id", i64 := 11 }] ∧
      (Process exampleLib exampleGlobals fieldDestinationNilStoreState).1.map
        requestError.Message = some "Not supported parameter store" ∧
      fieldDestinationNilStoreState.mem 11 = Cell.int64 0 ∧
      (Process exampleLib exampleGlobals fieldDestinationNilStoreState).2.mem 11
        = Cell.int64 5) := by
  refine ⟨⟨rfl, rfl, rfl, rfl, rfl, rfl⟩, rfl, rfl, rfl, rfl, rfl, rfl⟩

/-- C7, amended: a registered parameter whose source is none of the
recognised types (`nil` included), reached by `Process`, makes `Process`
fail with an error whose message is exactly `Not supported parameter store`,
whatever the parameter name. Resolving it writes nothing: the memory is as
the earlier stages left it, so its destination holds what the decode stage
left there when no earlier parameter shares it, and its value from before
the call when moreover the decoder did not write it. -/
theorem Process_unsupported_store {Obj : Type} (lib : Lib Obj) (g : Globals) (s : State Obj)
    (m1 : Mem Obj) (pre post : List paramInt64) (v : paramInt64) (isNil : Bool)
    (hauth : auth s.r = none)
    (hdecode : decodeStage lib g (setBody s.r).2 s.mem = (none, m1))
    (hparams : s.r.paramsInt64 = pre ++ v :: post)
    (hpre : (queryAll lib pre m1).1 = none)
    (hsource : v.data = .other isNil) :
    ∃ err : requestError,
      (Process lib g s).1 = some err ∧
      err.Message = "Not supported parameter store" ∧
      (Process lib g s).2.mem = (queryAll lib pre m1).2 ∧
      ((∀ u ∈ pre, u.i64 ≠ v.i64) → (Process lib g s).2.mem v.i64 = m1 v.i64) ∧
      ((∀ u ∈ pre, u.i64 ≠ v.i64) → m1 v.i64 = s.mem v.i64 →
        (Process lib g s).2.mem v.i64 = s.mem v.i64) := by
  have hv : ∀ m : Mem Obj, queryParamInt64 lib v m =
      (some (NewError "Not supported parameter store" (some "Not supported parameter store")),
       m) := by
    intro m
    unfold queryParamInt64
    rw [hsource]
  rw [Process_first_failing_param lib g s m1 pre post v _ hauth hdecode hparams hpre (hv _)]
  exact ⟨_, rfl, rfl, rfl, fun hfresh => queryAll_of_not_mem lib pre m1 v.i64 hfresh,
    fun hfresh hsame => (queryAll_of_not_mem lib pre m1 v.i64 hfresh).trans hsame⟩

/-- C7, amended, at the source `nil` and the parameter `id`
(`Test_ParamInt64ErrorNotSupportedStore`): the destination keeps its value 0. -/
theorem Process_unsupported_store_witness :
    ∃ err : requestError,
      (Process exampleLib exampleGlobals nilStoreState).1 = some err ∧
      err.Message = "Not supported parameter store" ∧
      (Process exampleLib exampleGlobals nilStoreState).2.mem 0 = Cell.int64 0 := by
  obtain ⟨err, h1, h2, _, _, h5⟩ :=
    Process_unsupported_store exampleLib exampleGlobals nilStoreState exampleMem [] []
      { data := .other true, name := "id", i64 := 0 } true rfl rfl rfl rfl rfl
  exact ⟨err, h1, h2, h5 (fun u hu => absurd hu (List.not_mem_nil u)) rfl⟩

/-! ### Order of the configurator calls (C1) -/

theorem any_eq_of_perm {α : Type} (f : α → Bool) {l₁ l₂ : List α} (h : l₁.Perm l₂) :
    l₁.any f = l₂.any f := by
  rw [Bool.eq_iff_iff]
  simp only [List.any_eq_true]
  constructor
  · rintro ⟨x, hx, hf⟩
    exact ⟨x, h.mem_iff.mp hx, hf⟩
  · rintro ⟨x, hx, hf⟩
    exact ⟨x, h.mem_iff.mpr hx, hf⟩

theorem configure_concat (r : request) (c : List Call) (x : Call) :
    configure r (c ++ [x]) = Call.apply (configure r c) x := by
  simp [configure, List.foldl_append]

/-- What a chain of calls leaves in the pipeline: logging is on when it was
or `Log` occurs, the decode target and the predicate are those of the last
`DecodeBody` and `BaseAuth` call, validation is on when it was or
`ValidateBody` occurs, and the parameters are appended in call order. -/
theorem configure_eq (r : request) (c : List Call) :
    configure r c =
      { httpRequest := r.httpRequest,
        logger := if c.any Call.isLog then Sink.LoggerOut else r.logger,
        bodyObject := ((c.filterMap Call.decodeTarget).getLast?).getD r.bodyObject,
        body := r.body,
        paramsInt64 := r.paramsInt64 ++ c.filterMap Call.param,
        enableValidateBody := r.enableValidateBody || c.any Call.isValidateBody,
        authFunc := ((c.filterMap Call.authPredicate).getLast?).getD r.authFunc } := by
  induction c using List.reverseRecOn with
  | nil => simp [configure]
  | append_singleton c x ih =>
    rw [configure_concat, ih]
    cases x <;>
      simp [Call.apply, request.Log, request.DecodeBody, request.ValidateBody, request.BaseAuth,
        request.ParamInt64, Call.isLog, Call.isValidateBody, Call.decodeTarget,
        Call.authPredicate, Call.param, List.filterMap_append, List.getLast?_append]

/-- C1, as stated, fails: two chains with the same calls and no `ParamInt64`
at all give different results when they differ in which `BaseAuth` call, or
which `DecodeBody` call, comes last. With the rejecting predicate set last
`Process` returns an error, with the accepting one last it returns none;
with the target at address 10 set last it is written, otherwise it is not. -/
theorem Process_call_order_counterexample :
    chainRejectThenAllow.Perm chainAllowThenReject ∧
      chainRejectThenAllow.filterMap Call.param = chainAllowThenReject.filterMap Call.param ∧
      (Process exampleLib exampleGlobals (chainState chainRejectThenAllow)).1 = none ∧
      (Process exampleLib exampleGlobals (chainState chainAllowThenReject)).1 ≠ none ∧
      chainDecodeFirstThenSecond.Perm chainDecodeSecondThenFirst ∧
      chainDecodeFirstThenSecond.filterMap Call.param =
        chainDecodeSecondThenFirst.filterMap Call.param ∧
      (Process exampleLib exampleGlobals (chainState chainDecodeFirstThenSecond)).2.mem 10
        = Cell.value { Value := "" } ∧
      (Process exampleLib exampleGlobals (chainState chainDecodeSecondThenFirst)).2.mem 10
        = Cell.value { Value := "a" } := by
  refine ⟨List.Perm.swap _ _ _, rfl, rfl, by decide, List.Perm.swap _ _ _, rfl, rfl, rfl⟩

/-- C1, amended: `Process` runs its stages in a fixed order whatever order
the configurators were called in. For every request and every two chains of
`Log`, `DecodeBody`, `ValidateBody`, `BaseAuth` and `ParamInt64` calls that
contain the same calls, keep the relative order of the `ParamInt64` calls and
have the same last `DecodeBody` call and the same last `BaseAuth` call,
`Process` returns the same error (or none) and leaves the same state: decode
target, parameter destinations and log. -/
theorem Process_call_order {Obj : Type} (lib : Lib Obj) (g : Globals) (req : HttpRequest)
    (m : Mem Obj) (log : List LogEntry) (c₁ c₂ : List Call)
    (hsame : c₁.Perm c₂)
    (hparams : c₁.filterMap Call.param = c₂.filterMap Call.param)
    (hdecode : (c₁.filterMap Call.decodeTarget).getLast? =
      (c₂.filterMap Call.decodeTarget).getLast?)
    (hauth : (c₁.filterMap Call.authPredicate).getLast? =
      (c₂.filterMap Call.authPredicate).getLast?) :
    Process lib g { r := configure (Request g req) c₁, mem := m, log := log } =
      Process lib g { r := configure (Request g req) c₂, mem := m, log := log } := by
  have h : configure (Request g req) c₁ = configure (Request g req) c₂ := by
    rw [configure_eq, configure_eq, hparams, hdecode, hauth,
      any_eq_of_perm Call.isLog hsame, any_eq_of_perm Call.isValidateBody hsame]
  rw [h]

/-- C1, amended, at the chain of the `PUT` handler of the example and the
same chain with `ParamInt64` moved behind `DecodeBody`. -/
theorem Process_call_order_witness :
    Process exampleLib exampleGlobals (chainState chainParamFirst) =
      Process exampleLib exampleGlobals (chainState chainDecodeFirst) :=
  Process_call_order exampleLib exampleGlobals valueARequest exampleMem []
    chainParamFirst chainDecodeFirst (List.Perm.swap _ _ _) rfl rfl rfl

/-! ### First failure and full success (C8, C9) -/

theorem queryAll_of_values {Obj : Type} (lib : Lib Obj) (l : List paramInt64) (m : Mem Obj)
    (h : ∀ u ∈ l, paramValue u ≠ none) : (queryAll lib l m).1 = none := by
  induction l generalizing m with
  | nil => rfl
  | cons w ws ih =>
    cases hw : paramValue w with
    | none => exact absurd hw (h w (List.mem_cons_self _ _))
    | some i =>
      rw [queryAll_cons_of_value lib w ws m i hw]
      exact ih _ (fun u hu => h u (List.mem_cons_of_mem _ hu))

theorem queryAll_holds {Obj : Type} (lib : Lib Obj) (l : List paramInt64) (m : Mem Obj)
    (hdistinct : (l.map (fun u => u.i64)).Nodup)
    (h : ∀ u ∈ l, paramValue u ≠ none) :
    ∀ u ∈ l, (paramValue u).map Cell.int64 = some ((queryAll lib l m).2 u.i64) := by
  induction l generalizing m with
  | nil => intro u hu; exact absurd hu (List.not_mem_nil u)
  | cons w ws ih =>
    rw [List.map_cons, List.nodup_cons] at hdistinct
    cases hw : paramValue w with
    | none => exact absurd hw (h w (List.mem_cons_self _ _))
    | some i =>
      rw [queryAll_cons_of_value lib w ws m i hw]
      intro u hu
      rcases List.mem_cons.mp hu with rfl | hu
      · rw [queryAll_of_not_mem lib ws _ u.i64
          (fun x hx hxu => hdistinct.1 (List.mem_map.mpr ⟨x, hx, hxu⟩))]
        simp [hw]
      · exact ih _ hdistinct.2 (fun x hx => h x (List.mem_cons_of_mem _ hx)) u hu

theorem decodeStage_mem {Obj : Type} (lib : Lib Obj) (g : Globals) (r : request) (m : Mem Obj)
    (a : Nat) (h : r.bodyObject = some a) :
    (decodeStage lib g r m).2 = (jsonUnmarshal lib r.body a m).1 := by
  unfold decodeStage decodeBody
  rw [h]
  simp only
  cases (jsonUnmarshal lib r.body a m).2 with
  | some e => rfl
  | none =>
    simp only
    split <;> rfl

/-- C8, as stated, fails in two ways. When parameters share a destination:
of three parameters registered with the same destination, the first two
resolve to 1 and 2 and the third is the first to fail; `Process` returns the
error of the third, and the destination holds 2, which is neither the parsed
value 1 of the first parameter nor the value 0 the third parameter's
destination had. When a destination is a field of the decode target: on a
body that sets `id` to 5 and `value` to a number, decoding fails, and the
destination `&m.ID` went from 0 to 5. -/
theorem Process_first_failure_counterexample :
    (auth sharedFailingState.r = none ∧
      sharedFailingState.r.paramsInt64 =
        [{ data := paramsThree, name := "a", i64 := 0 },
         { data := paramsThree, name := "b", i64 := 0 },
         { data := paramsThree, name := "c", i64 := 0 }] ∧
      paramValue { data := paramsThree, name := "a", i64 := 0 } = some 1 ∧
      paramValue { data := paramsThree, name := "b", i64 := 0 } = some 2 ∧
      paramValue { data := paramsThree, name := "c", i64 := 0 } = none ∧
      (Process exampleLib exampleGlobals sharedFailingState).1.map requestError.Message
        = some "Error cannot find int64 parameter c" ∧
      sharedFailingState.mem 0 = Cell.int64 0 ∧
      (Process exampleLib exampleGlobals sharedFailingState).2.mem 0 = Cell.int64 2) ∧
    (auth fieldDestinationMismatchState.r = none ∧
      fieldDestinationMismatchState.r.bodyObject = some 10 ∧
      fieldDestinationMismatchState.r.paramsInt64 =
        [{ data := paramsSeven, name := "id", i64 := 11 }] ∧
      (jsonUnmarshal exampleLib fieldDestinationMismatchState.r.httpRequest.Body.data 10
        fieldDestinationMismatchState.mem).2 ≠ none ∧
      (Process exampleLib exampleGlobals fieldDestinationMismatchState).1.map
        requestError.Message = some "Error cannot parse JSON body" ∧
      fieldDestinationMismatchState.mem 11 = Cell.int64 0 ∧
      (Process exampleLib exampleGlobals fieldDestinationMismatchState).2.mem 11
        = Cell.int64 5) := by
  refine ⟨⟨rfl, rfl, rfl, rfl, rfl, rfl, rfl, rfl⟩, rfl, rfl, rfl, by decide, rfl, rfl, rfl⟩

/-- C8, amended: among decoding, validation and parameter extraction
`Process` stops at the first failing stage. When decoding or validation
fails, `Process` returns that error and the parameter stage writes nothing:
the caller's variables are as `json.Unmarshal` left them, so a destination
the decoder did not write is unchanged. When the registered parameters have
pairwise distinct destinations and the parameter `v` is the first to fail,
the destinations of the parameters registered before it hold their parsed
values, the destinations of `v` and of the later parameters hold what the
decode stage left there, and the error returned is the one resolving `v`
gives. -/
theorem Process_first_failure {Obj : Type} (lib : Lib Obj) (g : Globals) (s : State Obj)
    (hauth : auth s.r = none) :
    (∀ (err : requestError) (m1 : Mem Obj),
        decodeStage lib g (setBody s.r).2 s.mem = (some err, m1) →
        (Process lib g s).1 = some err ∧
        ∃ a, s.r.bodyObject = some a ∧
          (Process lib g s).2.mem = (jsonUnmarshal lib (setBody s.r).2.body a s.mem).1 ∧
          ∀ d, (jsonUnmarshal lib (setBody s.r).2.body a s.mem).1 d = s.mem d →
            (Process lib g s).2.mem d = s.mem d) ∧
    (∀ (m1 : Mem Obj) (pre post : List paramInt64) (v : paramInt64),
        (s.r.paramsInt64.map (fun u => u.i64)).Nodup →
        decodeStage lib g (setBody s.r).2 s.mem = (none, m1) →
        s.r.paramsInt64 = pre ++ v :: post →
        (∀ u ∈ pre, paramValue u ≠ none) →
        paramValue v = none →
        (∃ err : requestError, (Process lib g s).1 = some err ∧
          ∀ m : Mem Obj, (queryParamInt64 lib v m).1 = some err) ∧
        (∀ u ∈ pre, (paramValue u).map Cell.int64 = some ((Process lib g s).2.mem u.i64)) ∧
        (∀ u ∈ v :: post, (Process lib g s).2.mem u.i64 = m1 u.i64) ∧
        (∀ u ∈ v :: post, m1 u.i64 = s.mem u.i64 →
          (Process lib g s).2.mem u.i64 = s.mem u.i64)) := by
  constructor
  · intro err m1 hd
    rw [Process_decode_fail lib g s err m1 hauth hd]
    refine ⟨rfl, ?_⟩
    cases ht : s.r.bodyObject with
    | none =>
      have h := hd
      unfold decodeStage at h
      rw [setBody_bodyObject, ht] at h
      exact absurd (congrArg Prod.fst h) (by simp)
    | some a =>
      have h := decodeStage_mem lib g (setBody s.r).2 s.mem a
        ((setBody_bodyObject s.r).trans ht)
      rw [hd] at h
      exact ⟨a, rfl, h, fun d hsame => (congrFun h d).trans hsame⟩
  · intro m1 pre post v hdistinct hd hparams hpre hv
    rw [hparams, List.map_append, List.nodup_append] at hdistinct
    obtain ⟨hpreDistinct, -, hdisjoint⟩ := hdistinct
    obtain ⟨err, herr⟩ := queryParamInt64_of_no_value lib v (queryAll lib pre m1).2 hv
    rw [Process_first_failing_param lib g s m1 pre post v err hauth hd hparams
      (queryAll_of_values lib pre m1 hpre) herr]
    have hkept : ∀ u ∈ v :: post, (queryAll lib pre m1).2 u.i64 = m1 u.i64 := by
      intro u hu
      refine queryAll_of_not_mem lib pre m1 u.i64 ?_
      intro w hw hwu
      exact hdisjoint (List.mem_map.mpr ⟨w, hw, rfl⟩)
        (List.mem_map.mpr ⟨u, hu, hwu.symm⟩)
    refine ⟨⟨err, rfl, ?_⟩, ?_, hkept, fun u hu hsame => (hkept u hu).trans hsame⟩
    · intro m
      obtain ⟨err2, herr2⟩ := queryParamInt64_of_no_value lib v m hv
      have h1 : (queryParamInt64 lib v m).1 = (queryParamInt64 lib v (queryAll lib pre m1).2).1 := by
        unfold queryParamInt64 queryParams
        cases v.data <;> simp only <;> split <;> rfl
      rw [h1, herr]
    · exact queryAll_holds lib pre m1 hpreDistinct hpre

/-- C8, amended, at a malformed body with a parameter registered, where the
destination keeps its value 0, and at three parameters with destinations of
their own, the third of which is the first to fail: the first two
destinations hold 1 and 2, the third is unchanged and the error is the one
of the third. -/
theorem Process_first_failure_witness :
    ((Process exampleLib exampleGlobals malformedWithParamState).1.map requestError.Message
        = some "Error cannot parse JSON body" ∧
      (Process exampleLib exampleGlobals malformedWithParamState).2.mem 0 = Cell.int64 0) ∧
    ((Process exampleLib exampleGlobals distinctFailingState).1.map requestError.Message
        = some "Error cannot find int64 parameter c" ∧
      (Process exampleLib exampleGlobals distinctFailingState).2.mem 0 = Cell.int64 1 ∧
      (Process exampleLib exampleGlobals distinctFailingState).2.mem 1 = Cell.int64 2 ∧
      (Process exampleLib exampleGlobals distinctFailingState).2.mem 2 = Cell.int64 0) := by
  constructor
  · obtain ⟨h1, a, ha, -, h3⟩ :=
      (Process_first_failure exampleLib exampleGlobals malformedWithParamState rfl).1
        (NewError "Error cannot parse JSON body"
          (some "invalid character 'x' looking for beginning of value"))
        (decodeStage exampleLib exampleGlobals (setBody malformedWithParamState.r).2
          malformedWithParamState.mem).2 rfl
    have ha10 : a = 10 := (Option.some.inj ha).symm
    subst ha10
    rw [h1]
    exact ⟨rfl, h3 0 rfl⟩
  · obtain ⟨⟨err, h1, h2⟩, h3, -, h5⟩ :=
      (Process_first_failure exampleLib exampleGlobals distinctFailingState rfl).2
        exampleMem
        [{ data := paramsThree, name := "a", i64 := 0 },
         { data := paramsThree, name := "b", i64 := 1 }] []
        { data := paramsThree, name := "c", i64 := 2 } (by decide) rfl rfl (by decide) rfl
    refine ⟨?_, ?_, ?_, ?_⟩
    · have h6 : (queryParamInt64 exampleLib { data := paramsThree, name := "c", i64 := 2 }
          exampleMem).1 = some (NewError "Error cannot find int64 parameter c"
            (some "strconv.ParseInt: parsing \"x\": invalid syntax")) := rfl
      rw [h1, Option.some.inj ((h2 exampleMem).symm.trans h6)]
      rfl
    · have h6 := h3 { data := paramsThree, name := "a", i64 := 0 } (by decide)
      exact (Option.some.inj h6).symm
    · have h6 := h3 { data := paramsThree, name := "b", i64 := 1 } (by decide)
      exact (Option.some.inj h6).symm
    · exact h5 { data := paramsThree, name := "c", i64 := 2 } (by decide) rfl

/-- C9, as stated, fails in two ways. When parameters share a destination:
both parameters resolve, to 1 and to 2, `Process` returns no error, and the
destination of the first parameter holds 2, not the 1 its text denotes. When
a destination is a field of the decode target: on a body that sets `id` to 5
and the route matched against `/7`, `Process` returns no error and the field
`m.ID` of the target holds 7, not the decoded 5. -/
theorem Process_success_counterexample :
    (auth sharedState.r = none ∧
      sharedState.r.bodyObject = none ∧
      sharedState.r.paramsInt64 =
        [{ data := paramsTwo, name := "a", i64 := 0 },
         { data := paramsTwo, name := "b", i64 := 0 }] ∧
      paramValue { data := paramsTwo, name := "a", i64 := 0 } = some 1 ∧
      paramValue { data := paramsTwo, name := "b", i64 := 0 } = some 2 ∧
      (Process exampleLib exampleGlobals sharedState).1 = none ∧
      (Process exampleLib exampleGlobals sharedState).2.mem 0 = Cell.int64 2) ∧
    (auth fieldDestinationState.r = none ∧
      fieldDestinationState.r.bodyObject = some 10 ∧
      fieldDestinationState.r.enableValidateBody = false ∧
      fieldDestinationState.r.paramsInt64 =
        [{ data := paramsSeven, name := "id", i64 := 11 }] ∧
      decimalInt64 (ByName [("id", "7")] "id") = some 7 ∧
      jsonUnmarshal exampleLib fieldDestinationState.r.httpRequest.Body.data 10
          fieldDestinationState.mem =
        (Function.update (Function.update exampleMem 11 (Cell.int64 5)) 10
          (Cell.value { Value := "a" }), none) ∧
      (Process exampleLib exampleGlobals fieldDestinationState).1 = none ∧
      (Process exampleLib exampleGlobals fieldDestinationState).2.mem 10
        = Cell.value { Value := "a" } ∧
      (Process exampleLib exampleGlobals fieldDestinationState).2.mem 11 = Cell.int64 7) := by
  refine ⟨⟨rfl, rfl, rfl, rfl, rfl, rfl, rfl⟩, rfl, rfl, rfl, rfl, by decide, rfl, rfl, rfl, rfl⟩

/-- C9, amended: when the predicate accepts, the body is read and decodes
without error into the registered target (if one is registered), the decoded
object passes validation (if enabled), every registered parameter resolves
on a recognised source to the base-10 text of an integer in the range
`-2^63 .. 2^63-1` and the parameters have pairwise distinct destinations,
`Process` returns no error, every parameter destination holds the integer
its text denotes, and every other variable holds exactly what
`json.Unmarshal` left in it: the decode target holds exactly the decoded
values in every field that is not itself a parameter destination. -/
theorem Process_success {Obj : Type} (lib : Lib Obj) (g : Globals) (s : State Obj)
    (hauth : auth s.r = none)
    (hread : s.r.httpRequest.Body.fail = none)
    (hdecode : ∀ a, s.r.bodyObject = some a →
      (jsonUnmarshal lib s.r.httpRequest.Body.data a s.mem).2 = none)
    (hvalid : ∀ a, s.r.bodyObject = some a → s.r.enableValidateBody = true →
      lib.validate g.ValidatorTagName a
        (jsonUnmarshal lib s.r.httpRequest.Body.data a s.mem).1 = none)
    (hparams : ∀ u ∈ s.r.paramsInt64, ∃ ps,
      (u.data = .httprouterParams ps ∨ u.data = .ginParams ps) ∧
        decimalInt64 (ByName ps u.name) ≠ none)
    (hdistinct : (s.r.paramsInt64.map (fun u => u.i64)).Nodup) :
    (Process lib g s).1 = none ∧
      (∀ a, s.r.bodyObject = some a → ∀ d, (∀ u ∈ s.r.paramsInt64, u.i64 ≠ d) →
        (Process lib g s).2.mem d =
          (jsonUnmarshal lib s.r.httpRequest.Body.data a s.mem).1 d) ∧
      (s.r.bodyObject = none → ∀ d, (∀ u ∈ s.r.paramsInt64, u.i64 ≠ d) →
        (Process lib g s).2.mem d = s.mem d) ∧
      (∀ u ∈ s.r.paramsInt64, ∀ ps,
        (u.data = .httprouterParams ps ∨ u.data = .ginParams ps) →
          (decimalInt64 (ByName ps u.name)).map Cell.int64 =
            some ((Process lib g s).2.mem u.i64)) := by
  have hvalues : ∀ u ∈ s.r.paramsInt64, paramValue u ≠ none := by
    intro u hu
    obtain ⟨ps, hsrc, htext⟩ := hparams u hu
    rw [paramValue_eq_decimalInt64 u ps hsrc]
    exact htext
  have hd : ∃ m1, decodeStage lib g (setBody s.r).2 s.mem = (none, m1) ∧
      (∀ a, s.r.bodyObject = some a →
        m1 = (jsonUnmarshal lib s.r.httpRequest.Body.data a s.mem).1) ∧
      (s.r.bodyObject = none → m1 = s.mem) := by
    unfold decodeStage decodeBody validateBody
    rw [setBody_bodyObject, setBody_body_of_read_ok _ hread, setBody_enableValidateBody]
    cases ht : s.r.bodyObject with
    | none => exact ⟨s.mem, rfl, fun a ha => absurd ha (by simp), fun _ => rfl⟩
    | some a =>
      have h1 := hdecode a ht
      have h2 := hvalid a ht
      simp only [h1]
      by_cases hv : s.r.enableValidateBody = true
      · simp only [hv, if_true, h2 hv]
        exact ⟨_, rfl, fun b hb => by rw [← Option.some.inj hb], fun h => absurd h (by simp)⟩
      · simp only [hv]
        exact ⟨_, rfl, fun b hb => by rw [← Option.some.inj hb], fun h => absurd h (by simp)⟩
  obtain ⟨m1, hm1, htarget, hnone⟩ := hd
  rw [Process_decode_ok lib g s m1 hauth hm1, setBody_paramsInt64]
  refine ⟨queryAll_of_values lib _ m1 hvalues, ?_, ?_, ?_⟩
  · intro a ha d hd
    rw [← htarget a ha]
    exact queryAll_of_not_mem lib _ m1 d hd
  · intro ha d hd
    rw [← hnone ha]
    exact queryAll_of_not_mem lib _ m1 d hd
  · intro u hu ps hsrc
    rw [← paramValue_eq_decimalInt64 u ps hsrc]
    exact queryAll_holds lib _ m1 hdistinct hvalues u hu

/-- C9, amended, at a body that sets `value` to `a`, with validation, and
two parameters with destinations of their own resolving to 1 and 2. -/
theorem Process_success_witness :
    (Process exampleLib exampleGlobals successState).1 = none ∧
      (Process exampleLib exampleGlobals successState).2.mem 10 = Cell.value { Value := "a" } ∧
      (Process exampleLib exampleGlobals successState).2.mem 0 = Cell.int64 1 ∧
      (Process exampleLib exampleGlobals successState).2.mem 1 = Cell.int64 2 := by
  have hl : successState.r.paramsInt64 =
      [{ data := paramsTwo, name := "a", i64 := 0 },
       { data := paramsTwo, name := "b", i64 := 1 }] := rfl
  have hsources : ∀ u ∈ successState.r.paramsInt64, ∃ ps,
      (u.data = .httprouterParams ps ∨ u.data = .ginParams ps) ∧
        decimalInt64 (ByName ps u.name) ≠ none := by
    intro u hu
    rw [hl] at hu
    simp only [List.mem_cons, List.mem_singleton, List.not_mem_nil, or_false] at hu
    rcases hu with rfl | rfl
    · exact ⟨[("a", "1"), ("b", "2")], Or.inl rfl, by decide⟩
    · exact ⟨[("a", "1"), ("b", "2")], Or.inl rfl, by decide⟩
  obtain ⟨h1, h2, -, h3⟩ :=
    Process_success exampleLib exampleGlobals successState rfl rfl
      (fun a ha => by rw [← Option.some.inj ha]; rfl)
      (fun a ha _ => by rw [← Option.some.inj ha]; rfl)
      hsources (by decide)
  refine ⟨h1, ?_, ?_, ?_⟩
  · have hfree : ∀ u ∈ successState.r.paramsInt64, u.i64 ≠ 10 := by
      intro u hu
      rw [hl] at hu
      simp only [List.mem_cons, List.mem_singleton, List.not_mem_nil, or_false] at hu
      rcases hu with rfl | rfl <;> decide
    exact (h2 10 rfl 10 hfree).trans rfl
  · have h4 := h3 { data := paramsTwo, name := "a", i64 := 0 } (by decide)
      [("a", "1"), ("b", "2")] (Or.inl rfl)
    have h5 : (decimalInt64 (ByName [("a", "1"), ("b", "2")] "a")).map Cell.int64
        = some (Cell.int64 1 : Cell TestObject) := by decide
    exact Option.some.inj (h4.symm.trans h5)
  · have h4 := h3 { data := paramsTwo, name := "b", i64 := 1 } (by decide)
      [("a", "1"), ("b", "2")] (Or.inl rfl)
    have h5 : (decimalInt64 (ByName [("a", "1"), ("b", "2")] "b")).map Cell.int64
        = some (Cell.int64 2 : Cell TestObject) := by decide
    exact Option.some.inj (h4.symm.trans h5)

/-! ### The error path of the response writer (C10) -/

theorem logError_writer (r : response) (msg : String) :
    (r.logError msg).1.writer = r.writer := by
  simp only [response.logError, ReadAll]
  split <;> rfl

theorem logError_logID (r : response) (msg : String) :
    (r.logError msg).1.logID = r.logID := by
  simp only [response.logError, ReadAll]
  split <;> rfl

theorem logError_entry (r : response) (msg : String) :
    ∃ entry ∈ (r.logError msg).2,
      entry.level = Level.Error ∧ entry.message = msg ∧ ("id", r.logID) ∈ entry.fields := by
  simp only [response.logError, ReadAll]
  split
  · exact ⟨_, List.mem_cons_of_mem _ (List.mem_singleton_self _), rfl, rfl, by simp⟩
  · exact ⟨_, List.mem_singleton_self _, rfl, rfl, by simp⟩

theorem Response_writer (w : ResponseWriter) (req : HttpRequest) (id : String × GoError) :
    (Response w req id).1.writer = w := by
  unfold Response
  cases id.2 with
  | none => rfl
  | some e => simp only [logError_writer]

theorem Response_logID (w : ResponseWriter) (req : HttpRequest) (id : String × GoError) :
    (Response w req id).1.logID = id.1 := by
  unfold Response
  cases id.2 with
  | none => rfl
  | some e => simp only [logError_logID]

/-- C10: for every error `err` and every status code `c` set beforehand with
`StatusCode(c)` on a response whose header is not yet written,
`Error(err)` writes status 400, whatever `c` is, appends to the body the
JSON object that has the field `id`, holding the JSON string of the
response's correlation identifier, followed by the field `message`, holding
the JSON string of `err.Message()`, and logs an error entry whose field `id`
is that same identifier and whose message is `err` as `fmt.Sprint` prints
it, which is the text of the cause when there is one. -/
theorem Error_writes_bad_request {Obj : Type} (lib : Lib Obj) (w : ResponseWriter)
    (req : HttpRequest) (id : String × GoError) (c : Nat) (err : requestError)
    (hfresh : w.Code = none) :
    ((((Response w req id).1.StatusCode c).Error lib err).1.writer.Code = some 400) ∧
      ((((Response w req id).1.StatusCode c).Error lib err).1.writer.Body =
        w.Body ++ ("\x7b\"id\":" ++ lib.jsonString id.1 ++ ",\"message\":" ++
          lib.jsonString err.Message ++ "\x7d")) ∧
      (Response w req id).1.logID = id.1 ∧
      ∃ entry ∈ (((Response w req id).1.StatusCode c).Error lib err).2,
        entry.level = Level.Error ∧ ("id", id.1) ∈ entry.fields ∧
        entry.message = sprintError err ∧
        ∀ cause, err.err = some cause → entry.message = cause := by
  have hw := Response_writer w req id
  have hid := Response_logID w req id
  generalize (Response w req id).1 = resp at hw hid
  obtain ⟨entry, hmem, hlevel, hmsg, hfield⟩ :=
    logError_entry { (resp.StatusCode c) with writer := (resp.StatusCode c).writer.WriteHeader 400 }
      (sprintError err)
  refine ⟨?_, ?_, hid, entry, ?_, hlevel, ?_, hmsg, ?_⟩
  · simp only [response.Error, response.json, ResponseWriter.Write, logError_writer,
      response.StatusCode, hw, ResponseWriter.WriteHeader, hfresh]
  · simp only [response.Error, response.json, ResponseWriter.Write, logError_writer,
      logError_logID, response.StatusCode, hw, hid, ResponseWriter.WriteHeader, hfresh,
      marshalErrorResponse]
  · simp only [response.Error, response.json, ResponseWriter.Write, List.append_nil]
    exact hmem
  · simpa [response.StatusCode, hid] using hfield
  · intro cause hcause
    rw [hmsg]
    simp [sprintError, requestError.Error, hcause]

/-- C10 at `StatusCode(201)` on a fresh recorder and the error of
`Test_ResponseDataError`. -/
theorem Error_writes_bad_request_witness :
    ((((Response NewRecorder getRequest ("1f", none)).1.StatusCode 201).Error exampleLib
        noLove).1.writer.Code = some 400) ∧
      ((((Response NewRecorder getRequest ("1f", none)).1.StatusCode 201).Error exampleLib
        noLove).1.writer.Body = "\x7b\"id\":\"1f\",\"message\":\"No love in here\"\x7d") ∧
      ∃ entry ∈ (((Response NewRecorder getRequest ("1f", none)).1.StatusCode 201).Error
          exampleLib noLove).2,
        ("id", "1f") ∈ entry.fields ∧ entry.message = "Love me hard" := by
  obtain ⟨h1, h2, _, entry, h4, _, h6, _, h8⟩ :=
    Error_writes_bad_request exampleLib NewRecorder getRequest ("1f", none) 201 noLove rfl
  exact ⟨h1, h2, entry, h4, h6, h8 "Love me hard" rfl⟩

/-! ### Producers and the success path of the response writer (C11, C12) -/

theorem WriteHeader_code (w : ResponseWriter) (c : Nat) :
    (w.WriteHeader c).Code = some (w.Code.getD c) := by
  unfold ResponseWriter.WriteHeader
  cases h : w.Code <;> simp [h]

theorem WriteHeader_body (w : ResponseWriter) (c : Nat) : (w.WriteHeader c).Body = w.Body := by
  unfold ResponseWriter.WriteHeader
  cases h : w.Code <;> simp

theorem json_ok_writer (r : response) (body : String) :
    (r.json (.ok body)).1.writer =
      { Code := some (r.writer.Code.getD 200), Body := r.writer.Body ++ body } := by
  simp only [response.json, ResponseWriter.Write, WriteHeader_code, WriteHeader_body]

theorem json_error_writer (r : response) (e : String) :
    (r.json (.error e)).1.writer = r.writer := by
  simp only [response.json, logError_writer]

theorem Error_writer {Obj : Type} (lib : Lib Obj) (r : response) (err : requestError) :
    (r.Error lib err).1.writer =
      { Code := some (r.writer.Code.getD 400),
        Body := r.writer.Body ++ marshalErrorResponse lib r.logID err.Message } := by
  simp only [response.Error, json_ok_writer, logError_writer, logError_logID,
    WriteHeader_code, WriteHeader_body, Option.getD_some]


/-- C11: `Data(fn)` runs the producer exactly once: the caller's state
afterwards is the one a single call of `fn` leaves. If `fn` yields an error
the effect is that of `Error` with this error: status 400 and, appended to
the body, the JSON object that has the field `id`, holding the JSON string
of the correlation identifier, followed by the field `message`, holding the
JSON string of `err.Message()`. Otherwise it writes the
configured status code, which is 200 on a response fresh from `Response`
and `c` after `StatusCode(c)`, and the body is the JSON serialization of the
produced value. The response is one whose header is not yet written. -/
theorem Data_effect {Obj P : Type} (lib : Lib Obj) (r : response)
    (fn : P → (Obj × Option requestError) × P) (p : P)
    (hfresh : r.writer.Code = none) :
    (r.Data lib fn p).2 = (fn p).2 ∧
      (∀ err, (fn p).1.2 = some err →
        (r.Data lib fn p).1 = r.Error lib err ∧
        (r.Data lib fn p).1.1.writer =
          { Code := some 400,
            Body := r.writer.Body ++ ("\x7b\"id\":" ++ lib.jsonString r.logID ++
              ",\"message\":" ++ lib.jsonString err.Message ++ "\x7d") }) ∧
      ((fn p).1.2 = none →
        (r.Data lib fn p).1.1.writer.Code = some r.statusCode ∧
        ∀ body, lib.marshal (fn p).1.1 = .ok body →
          (r.Data lib fn p).1.1.writer.Body = r.writer.Body ++ body) ∧
      (∀ (w : ResponseWriter) (req : HttpRequest) (id : String × GoError) (c : Nat),
        (Response w req id).1.statusCode = 200 ∧
        ((Response w req id).1.StatusCode c).statusCode = c) := by
  refine ⟨?_, ?_, ?_, ?_⟩
  · simp only [response.Data]
    split <;> rfl
  · intro err herr
    have h : (r.Data lib fn p).1 = r.Error lib err := by
      unfold response.Data
      simp only [herr]
    refine ⟨h, ?_⟩
    rw [h, Error_writer, hfresh]
    rfl
  · intro hok
    have h : (r.Data lib fn p).1 =
        response.json { r with writer := r.writer.WriteHeader r.statusCode }
          (lib.marshal (fn p).1.1) := by
      unfold response.Data
      simp only [hok]
    rw [h]
    cases hm : lib.marshal (fn p).1.1 with
    | error e =>
      rw [json_error_writer]
      simp [WriteHeader_code, hfresh]
    | ok body =>
      rw [json_ok_writer]
      simp [WriteHeader_code, WriteHeader_body, hfresh]
  · intro w req id c
    have h : (Response w req id).1.statusCode = 200 := by
      unfold Response
      cases id.2 with
      | none => rfl
      | some e =>
        simp only [response.logError, ReadAll]
        split <;> rfl
    exact ⟨h, rfl⟩

/-- C11 at `StatusCode(201)` on a fresh recorder: a producer that succeeds
gives status 201 and the JSON of its value and has run once, a producer that
fails gives status 400 and the envelope. -/
theorem Data_effect_witness :
    ((((Response NewRecorder getRequest ("1f", none)).1.StatusCode 201).Data exampleLib
        countingProducer 0).2 = 1) ∧
      ((((Response NewRecorder getRequest ("1f", none)).1.StatusCode 201).Data exampleLib
        countingProducer 0).1.1.writer =
          { Code := some 201, Body := "\x7b\"value\":\"v\"\x7d" }) ∧
      ((((Response NewRecorder getRequest ("1f", none)).1.StatusCode 201).Data exampleLib
        failingProducer 0).1.1.writer =
          { Code := some 400,
            Body := "\x7b\"id\":\"1f\",\"message\":\"No love in here\"\x7d" }) := by
  obtain ⟨h1, -, h3, -⟩ :=
    Data_effect exampleLib ((Response NewRecorder getRequest ("1f", none)).1.StatusCode 201)
      countingProducer 0 rfl
  obtain ⟨-, h2, -, -⟩ :=
    Data_effect exampleLib ((Response NewRecorder getRequest ("1f", none)).1.StatusCode 201)
      failingProducer 0 rfl
  refine ⟨h1, ?_, (h2 noLove rfl).2⟩
  obtain ⟨h4, h5⟩ := h3 rfl
  have h6 := h5 _ rfl
  generalize (((Response NewRecorder getRequest ("1f", none)).1.StatusCode 201).Data exampleLib
        countingProducer 0).1.1.writer = w at h4 h6 ⊢
  cases w
  simp only at h4 h6
  rw [h4, h6]
  rfl

/-- C12, as stated, fails: after `StatusCode(201)`, `OK()` writes status
200, not 201. -/
theorem OK_status_counterexample :
    ((Response NewRecorder getRequest ("1f", none)).1.StatusCode 201).OK.writer.Code = some 200 ∧
      ((Response NewRecorder getRequest ("1f", none)).1.StatusCode 201).OK.writer.Code
        ≠ some 201 := by
  refine ⟨rfl, by decide⟩

/-- C12, amended: `OK()` writes status 200 with no body, whatever status
code is configured: on a response whose header is not yet written,
`StatusCode(c)` followed by `OK()` writes status 200 and leaves the body
empty, and so does `OK()` without a prior `StatusCode` call. -/
theorem OK_writes_200 (w : ResponseWriter) (req : HttpRequest) (id : String × GoError)
    (c : Nat) (hfresh : w.Code = none) :
    ((Response w req id).1.StatusCode c).OK.writer = { Code := some 200, Body := w.Body } ∧
      (Response w req id).1.OK.writer = { Code := some 200, Body := w.Body } := by
  have hw := Response_writer w req id
  constructor
  · simp only [response.OK, response.StatusCode, hw, ResponseWriter.WriteHeader, hfresh]
  · simp only [response.OK, hw, ResponseWriter.WriteHeader, hfresh]

/-- C12, amended, at `StatusCode(201)` on a fresh recorder. -/
theorem OK_writes_200_witness :
    ((Response NewRecorder getRequest ("1f", none)).1.StatusCode 201).OK.writer =
        { Code := some 200, Body := "" } ∧
      (Response NewRecorder getRequest ("1f", none)).1.OK.writer =
        { Code := some 200, Body := "" } :=
  OK_writes_200 NewRecorder getRequest ("1f", none) 201 rfl

/-! ### What of an error reaches the client (C13) -/

theorem decodeStage_error {Obj : Type} (lib : Lib Obj) (g : Globals) (r : request)
    (m m1 : Mem Obj) (err : requestError)
    (h : decodeStage lib g r m = (some err, m1)) :
    err.Message = "Error cannot parse JSON body" ∨
      ((∃ errs : List FieldError, err.Message =
          String.join (errs.map fun v => v.Field ++ " failed due to " ++ v.Tag)) ∧
        err.Error = some err.Message) := by
  unfold decodeStage at h
  cases hb : r.bodyObject with
  | none => rw [hb] at h; simp at h
  | some a =>
    rw [hb] at h
    simp only at h
    unfold decodeBody at h
    cases hu : (jsonUnmarshal lib r.body a m).2 with
    | some e =>
      simp only [hu, Prod.mk.injEq, Option.some.injEq] at h
      left
      rw [← h.1]
      rfl
    | none =>
      simp only [hu] at h
      by_cases hv : r.enableValidateBody = true
      · simp only [hv, if_true, Prod.mk.injEq] at h
        unfold validateBody at h
        right
        split at h
        · next errs _ =>
          simp only [Option.some.injEq] at h
          rw [← h.1]
          exact ⟨⟨errs, validationMessage_eq_join errs⟩, rfl⟩
        · exact absurd h.1 (by simp)
      · simp only [hv] at h
        simp at h

theorem queryParamInt64_error {Obj : Type} (lib : Lib Obj) (v : paramInt64) (m : Mem Obj)
    (err : requestError) (h : (queryParamInt64 lib v m).1 = some err) :
    err.Message = "Error cannot find int64 parameter " ++ v.name ∨
      (err.Message = "Not supported parameter store" ∧ err.Error = some err.Message) := by
  unfold queryParamInt64 queryParams at h
  cases hd : v.data with
  | httprouterParams ps =>
    rw [hd] at h
    simp only at h
    split at h
    · simp only [Option.some.injEq] at h
      left; rw [← h]; rfl
    · exact absurd h (by simp)
  | ginParams ps =>
    rw [hd] at h
    simp only at h
    split at h
    · simp only [Option.some.injEq] at h
      left; rw [← h]; rfl
    · exact absurd h (by simp)
  | other b =>
    rw [hd] at h
    simp only [Option.some.injEq] at h
    right; rw [← h]; exact ⟨rfl, rfl⟩

theorem queryAll_error {Obj : Type} (lib : Lib Obj) (l : List paramInt64) (m : Mem Obj)
    (err : requestError) (h : (queryAll lib l m).1 = some err) :
    (∃ v ∈ l, err.Message = "Error cannot find int64 parameter " ++ v.name) ∨
      (err.Message = "Not supported parameter store" ∧ err.Error = some err.Message) := by
  induction l generalizing m with
  | nil => simp [queryAll] at h
  | cons w ws ih =>
    cases hw : paramValue w with
    | none =>
      rw [queryAll_cons_of_no_value lib w ws m hw] at h
      rcases queryParamInt64_error lib w m err h with h1 | h1
      · exact Or.inl ⟨w, List.mem_cons_self _ _, h1⟩
      · exact Or.inr h1
    | some i =>
      rw [queryAll_cons_of_value lib w ws m i hw] at h
      rcases ih _ h with ⟨v, hv, h1⟩ | h1
      · exact Or.inl ⟨v, List.mem_cons_of_mem _ hv, h1⟩
      · exact Or.inr h1

/-- C13, amended: the body `Error` writes carries only the correlation
identifier and `Message()`: it is the envelope built from the two, and it is
the same for two errors with the same message whatever their causes. Of the
errors `Process` returns, an Authentication, Decode or Param error has a
message made of a fixed text and the user name or the parameter name, not of
the cause, while a Validation or an Unsupported-Source error has the text of
its cause as its message. -/
theorem Process_error_message {Obj : Type} (lib : Lib Obj) (g : Globals) (s : State Obj)
    (err : requestError) (h : (Process lib g s).1 = some err) :
    (err.Message = "Unauthorized user " ++ s.r.httpRequest.basicAuth.1 ∨
      err.Message = "Error cannot parse JSON body" ∨
      (∃ v ∈ s.r.paramsInt64, err.Message = "Error cannot find int64 parameter " ++ v.name) ∨
      ((∃ errs : List FieldError, err.Message =
          String.join (errs.map fun v => v.Field ++ " failed due to " ++ v.Tag)) ∧
        err.Error = some err.Message) ∨
      (err.Message = "Not supported parameter store" ∧ err.Error = some err.Message)) ∧
    (∀ r : response, (r.Error lib err).1.writer.Body =
        r.writer.Body ++ ("\x7b\"id\":" ++ lib.jsonString r.logID ++ ",\"message\":" ++
          lib.jsonString err.Message ++ "\x7d")) ∧
    (∀ (r : response) (other : requestError), other.Message = err.Message →
        (r.Error lib other).1.writer = (r.Error lib err).1.writer) := by
  refine ⟨?_, fun r => by rw [Error_writer]; rfl, fun r other ho => by
    rw [Error_writer, Error_writer, ho]⟩
  cases ha : auth s.r with
  | some e =>
    left
    have hp : (Process lib g s).1 = some e := by
      unfold Process
      rw [ha]
    rw [hp] at h
    simp only [Option.some.injEq] at h
    subst h
    simp only [auth] at ha
    split at ha
    · simp only [Option.some.injEq] at ha
      rw [← ha]; rfl
    · exact absurd ha (by simp)
  | none =>
    rcases hd : decodeStage lib g (setBody s.r).2 s.mem with ⟨e, m1⟩
    cases e with
    | some e =>
      rw [Process_decode_fail lib g s e m1 ha hd] at h
      simp only [Option.some.injEq] at h
      subst h
      rcases decodeStage_error lib g _ _ _ _ hd with h1 | h1
      · exact Or.inr (Or.inl h1)
      · exact Or.inr (Or.inr (Or.inr (Or.inl h1)))
    | none =>
      rw [Process_decode_ok lib g s m1 ha hd, setBody_paramsInt64] at h
      rcases queryAll_error lib _ _ err h with h1 | h1
      · exact Or.inr (Or.inr (Or.inl h1))
      · exact Or.inr (Or.inr (Or.inr (Or.inr h1)))

/-- C13, as stated, fails: the message of the Unsupported-Source error and
that of the Validation error are the text of the cause itself, and the
message of an Authentication error contains the text of the predicate's
error when that text is `user`. -/
theorem Process_error_message_counterexample :
    (∃ err cause, (Process exampleLib exampleGlobals nilStoreState).1 = some err ∧
        err.Error = some cause ∧ containsText err.Message cause) ∧
      (∃ err cause, (Process exampleLib exampleGlobals emptyValueState).1 = some err ∧
        err.Error = some cause ∧ containsText err.Message cause) ∧
      (∃ err cause, (Process exampleLib exampleGlobals rejectTextState).1 = some err ∧
        err.Error = some cause ∧ containsText err.Message cause) := by
  refine ⟨⟨_, _, rfl, rfl, "", "", by decide⟩, ⟨_, _, rfl, rfl, "", "", by decide⟩,
    ⟨_, _, rfl, rfl, "Unauthorized ", " Deadpool", by decide⟩⟩

/-- C13, amended, at the Param error of `Test_ParamInt64httprouterError`:
the body written is the same for another cause. -/
theorem Process_error_message_witness :
    (Process exampleLib exampleGlobals paramAState).1.map requestError.Message =
        some "Error cannot find int64 parameter id" ∧
      ((Response NewRecorder getRequest ("1f", none)).1.Error exampleLib
          (NewError "Error cannot find int64 parameter id" (some "another cause"))).1.writer =
        ((Response NewRecorder getRequest ("1f", none)).1.Error exampleLib
          (NewError "Error cannot find int64 parameter id"
            (some "strconv.ParseInt: parsing \"a\": invalid syntax"))).1.writer :=
  ⟨rfl, (Process_error_message exampleLib exampleGlobals paramAState
    (NewError "Error cannot find int64 parameter id"
      (some "strconv.ParseInt: parsing \"a\": invalid syntax")) rfl).2.2
    (Response NewRecorder getRequest ("1f", none)).1 _ rfl⟩

/-! ### The shortcuts (C14) -/

/-- C14: each shortcut is its documented composition. `Post(m)` on a
pipeline is `DecodeBody(m).ValidateBody()`, `Put(m, p, n, i)` is
`DecodeBody(m).ValidateBody().ParamInt64(p, n, i)`, and `Post(fn)` on a
response is `StatusCode(201).Data(fn)`; so on a response whose header is not
yet written a producer that succeeds with a value that serializes yields
status 201 and the JSON of the value. -/
theorem shortcuts_are_compositions {Obj P : Type} (lib : Lib Obj) (r : request)
    (m : Option Nat) (p : ParamData) (n : String) (i : Nat) (resp : response)
    (fn : P → (Obj × Option requestError) × P) (x : P) :
    r.Post m = (r.DecodeBody m).ValidateBody ∧
      r.Post m = configure r [.DecodeBody m, .ValidateBody] ∧
      r.Put m p n i = ((r.DecodeBody m).ValidateBody).ParamInt64 p n i ∧
      r.Put m p n i = configure r [.DecodeBody m, .ValidateBody, .ParamInt64 p n i] ∧
      resp.Post lib fn x = (resp.StatusCode 201).Data lib fn x ∧
      (resp.writer.Code = none → (fn x).1.2 = none →
        ∀ body, lib.marshal (fn x).1.1 = .ok body →
          (resp.Post lib fn x).1.1.writer =
            { Code := some 201, Body := resp.writer.Body ++ body }) := by
  refine ⟨rfl, rfl, rfl, rfl, rfl, ?_⟩
  intro hfresh hok body hbody
  have h : (resp.Post lib fn x).1 =
      response.json { resp with writer := resp.writer.WriteHeader 201, statusCode := 201 }
        (lib.marshal (fn x).1.1) := by
    simp only [response.Post, response.Data, hok, response.StatusCode]
  rw [h, hbody, json_ok_writer]
  simp [WriteHeader_code, WriteHeader_body, hfresh]

/-- C14 at `Post` on a fresh recorder with a producer that succeeds
(`Test_PostResponse`). -/
theorem shortcuts_are_compositions_witness :
    ((Response NewRecorder getRequest ("1f", none)).1.Post exampleLib countingProducer 0).1.1.writer
      = { Code := some 201, Body := "\x7b\"value\":\"v\"\x7d" } :=
  (shortcuts_are_compositions exampleLib (Request exampleGlobals getRequest) (some 0)
    paramsOne "id" 0 (Response NewRecorder getRequest ("1f", none)).1 countingProducer 0).2.2.2.2.2
    rfl rfl _ rfl

/-! ### Request logging (C15) -/

theorem setBody_logger (r : request) : (setBody r).2.logger = r.logger := by
  simp only [setBody, ReadAll]
  split <;> rfl

theorem setBody_httpRequest (r : request) :
    (setBody r).2.httpRequest = { r.httpRequest with Body := (ReadAll r.httpRequest.Body).2 } := by
  simp only [setBody, ReadAll]
  split <;> rfl

theorem Process_log {Obj : Type} (lib : Lib Obj) (g : Globals) (s : State Obj)
    (h : auth s.r = none) :
    (Process lib g s).2.log = s.log ++ [logRequest (setBody s.r).2] := by
  rcases hd : decodeStage lib g (setBody s.r).2 s.mem with ⟨e, m1⟩
  cases e with
  | some e => rw [Process_decode_fail lib g s e m1 h hd]
  | none => rw [Process_decode_ok lib g s m1 h hd]

theorem configure_httpRequest (r : request) (c : List Call) :
    (configure r c).httpRequest = r.httpRequest := by
  rw [configure_eq]

/-- C15: the logger of the pipeline `Request(r)` followed by a chain of
calls writes to the sink of `Logger` exactly when the chain contains `Log()`
or `LogAllRequests` was true, and to the discarding sink otherwise. When
authentication passes and the body is read, `Process` adds exactly one log
entry, on that logger, whose fields `remote_addr`, `method`, `url` and
`body` are the remote address, method, URL and body of the request, whatever
the later stages do. -/
theorem request_logging_opt_in {Obj : Type} (lib : Lib Obj) (g : Globals) (req : HttpRequest)
    (calls : List Call) (m : Mem Obj) (log : List LogEntry) :
    ((configure (Request g req) calls).logger = Sink.LoggerOut ↔
        (calls.any Call.isLog = true ∨ g.LogAllRequests = true)) ∧
      ((configure (Request g req) calls).logger = Sink.Discard ↔
        ¬ (calls.any Call.isLog = true ∨ g.LogAllRequests = true)) ∧
      (auth (configure (Request g req) calls) = none → req.Body.fail = none →
        (Process lib g { r := configure (Request g req) calls, mem := m, log := log }).2.log =
          log ++ [{ out := (configure (Request g req) calls).logger, level := Level.Info,
                    fields := [("remote_addr", req.RemoteAddr), ("method", req.Method),
                      ("url", req.URL), ("body", req.Body.data)],
                    message := "" }]) := by
  have hl : (configure (Request g req) calls).logger =
      if calls.any Call.isLog = true ∨ g.LogAllRequests = true then Sink.LoggerOut
      else Sink.Discard := by
    rw [configure_eq]
    unfold Request
    cases calls.any Call.isLog <;> cases g.LogAllRequests <;> simp [request.Log]
  have hr : (configure (Request g req) calls).httpRequest = req := by
    rw [configure_httpRequest]
    unfold Request
    cases g.LogAllRequests <;> simp [request.Log]
  refine ⟨?_, ?_, ?_⟩
  · rw [hl]
    by_cases h : calls.any Call.isLog = true ∨ g.LogAllRequests = true
    · rw [if_pos h]
      exact ⟨fun _ => h, fun _ => rfl⟩
    · rw [if_neg h]
      exact ⟨fun hh => absurd hh (by decide), fun hh => absurd hh h⟩
  · rw [hl]
    by_cases h : calls.any Call.isLog = true ∨ g.LogAllRequests = true
    · rw [if_pos h]
      exact ⟨fun hh => absurd hh (by decide), fun hh => absurd h hh⟩
    · rw [if_neg h]
      exact ⟨fun _ => h, fun _ => rfl⟩
  · intro hauth hread
    rw [Process_log lib g _ hauth]
    have hread2 : (configure (Request g req) calls).httpRequest.Body.fail = none := by
      rw [hr]; exact hread
    simp only [logRequest, setBody_logger, setBody_httpRequest,
      setBody_body_of_read_ok _ hread2, hr]

/-- C15 at `Request(r).Log()` on the request of `Test_LogRequestManual`. -/
theorem request_logging_opt_in_witness :
    (Process exampleLib exampleGlobals
        { r := configure (Request exampleGlobals testBodyRequest) [.Log], mem := exampleMem,
          log := [] }).2.log =
      [{ out := Sink.LoggerOut, level := Level.Info,
         fields := [("remote_addr", "192.168.1.1"), ("method", "POST"), ("url", "/"),
           ("body", "test body")],
         message := "" }] :=
  (request_logging_opt_in exampleLib exampleGlobals testBodyRequest [.Log] exampleMem []).2.2
    rfl rfl

/-! ### Correlation identifiers -/

theorem hexDigit_injective :
    ∀ a < 16, ∀ b < 16, hexDigit a = hexDigit b → a = b := by
  decide

theorem hexByte_injective (a b : Nat) (h : hexByte a = hexByte b) : a % 256 = b % 256 := by
  unfold hexByte at h
  simp only [List.cons.injEq, and_true] at h
  have h1 := hexDigit_injective (a % 256 / 16) (by omega) (b % 256 / 16) (by omega) h.1
  have h2 := hexDigit_injective (a % 16) (by omega) (b % 16) (by omega) h.2
  omega

theorem flatMap_hexByte_injective (l₁ l₂ : List Nat)
    (h : l₁.flatMap hexByte = l₂.flatMap hexByte) :
    l₁.map (fun b => b % 256) = l₂.map (fun b => b % 256) := by
  induction l₁ generalizing l₂ with
  | nil =>
    cases l₂ with
    | nil => rfl
    | cons b l₂ => simp [List.flatMap, hexByte] at h
  | cons a l₁ ih =>
    cases l₂ with
    | nil => simp [List.flatMap, hexByte] at h
    | cons b l₂ =>
      simp only [List.flatMap_cons, hexByte, List.cons_append, List.nil_append,
        List.cons.injEq] at h
      obtain ⟨h1, h2, h3⟩ := h
      have hab : a % 256 = b % 256 := by
        apply hexByte_injective
        simp only [hexByte, h1, h2]
      simp only [List.map_cons, hab, ih l₂ h3]

theorem hexEncode_injective (l₁ l₂ : List Nat) (h : hexEncode l₁ = hexEncode l₂) :
    l₁.map (fun b => b % 256) = l₂.map (fun b => b % 256) := by
  unfold hexEncode at h
  exact flatMap_hexByte_injective l₁ l₂ (congrArg String.data h)

theorem newLogID_primary (sha1 : List Nat → List Nat) (e : Entropy)
    (h : e.crandN = 500 ∧ e.crandErr = none) :
    newLogID sha1 e = (hexEncode (sha1 e.crandBytes), none) := by
  unfold newLogID
  simp [h.1, h.2]

/-- What `newLogID` computes from its draws. For every sequence of calls on
the primary path (the secure source fills all 500 bytes without error), each
call returns a nil error and the lower-case hexadecimal encoding of the
SHA-1 digest of the bytes drawn; two calls return the same identifier only
if their draws have the same digest, so the identifiers are pairwise
distinct whenever the digests of the draws are. Whether the draws of the
secure source differ is not a property of this function. -/
theorem newLogID_distinct (sha1 : List Nat → List Nat) (draws : List Entropy)
    (hprimary : ∀ e ∈ draws, e.crandN = 500 ∧ e.crandErr = none) :
    (∀ e ∈ draws, (newLogID sha1 e).2 = none) ∧
      (∀ e ∈ draws, (newLogID sha1 e).1 = hexEncode (sha1 e.crandBytes)) ∧
      (∀ e₁ ∈ draws, ∀ e₂ ∈ draws, (newLogID sha1 e₁).1 = (newLogID sha1 e₂).1 →
        (sha1 e₁.crandBytes).map (fun b => b % 256) =
          (sha1 e₂.crandBytes).map (fun b => b % 256)) ∧
      ((draws.map fun e => (sha1 e.crandBytes).map (fun b => b % 256)).Nodup →
        (draws.map fun e => (newLogID sha1 e).1).Nodup) := by
  refine ⟨?_, ?_, ?_, ?_⟩
  · intro e he
    rw [newLogID_primary sha1 e (hprimary e he)]
  · intro e he
    rw [newLogID_primary sha1 e (hprimary e he)]
  · intro e₁ h₁ e₂ h₂ h
    rw [newLogID_primary sha1 e₁ (hprimary e₁ h₁),
      newLogID_primary sha1 e₂ (hprimary e₂ h₂)] at h
    exact hexEncode_injective _ _ h
  · intro hnodup
    induction draws with
    | nil => exact List.nodup_nil
    | cons e es ih =>
      rw [List.map_cons, List.nodup_cons] at hnodup ⊢
      refine ⟨?_, ih (fun x hx => hprimary x (List.mem_cons_of_mem _ hx)) hnodup.2⟩
      intro hmem
      obtain ⟨x, hx, hxe⟩ := List.mem_map.mp hmem
      apply hnodup.1
      refine List.mem_map.mpr ⟨x, hx, ?_⟩
      rw [newLogID_primary sha1 x (hprimary x (List.mem_cons_of_mem _ hx)),
        newLogID_primary sha1 e (hprimary e (List.mem_cons_self _ _))] at hxe
      exact hexEncode_injective _ _ hxe

/-- Two draws with different digests get different identifiers. -/
theorem newLogID_distinct_example :
    (newLogID exampleSum zeroDraw).2 = none ∧
      (newLogID exampleSum zeroDraw).1 = "0000000000000000000000000000000000000000" ∧
      ([zeroDraw, oneDraw].map fun e => (newLogID exampleSum e).1).Nodup := by
  have hprimary : ∀ e ∈ [zeroDraw, oneDraw], e.crandN = 500 ∧ e.crandErr = none := by
    intro e he
    simp only [List.mem_cons, List.mem_singleton, List.not_mem_nil, or_false] at he
    rcases he with rfl | rfl <;> exact ⟨rfl, rfl⟩
  obtain ⟨h1, h2, -, h4⟩ := newLogID_distinct exampleSum [zeroDraw, oneDraw] hprimary
  refine ⟨h1 zeroDraw (List.mem_cons_self _ _), ?_, h4 ?_⟩
  · rw [h2 zeroDraw (List.mem_cons_self _ _)]
    decide
  · decide

/-! ### The nil cause (C17) -/

/-- C17: when the predicate returns `(false, nil)` the error `Process`
returns has the message `Unauthorized user ` followed by the user name and a
nil cause, so that its `Error()` has no result; in general `Error()` of an
error built by `NewError` is the text of the cause, defined exactly when the
cause is not nil. -/
theorem Process_unauthorized_nil_cause {Obj : Type} (lib : Lib Obj) (g : Globals)
    (s : State Obj)
    (h : s.r.authFunc s.r.httpRequest.basicAuth.1 s.r.httpRequest.basicAuth.2.1 = (false, none)) :
    (∃ err : requestError, (Process lib g s).1 = some err ∧
        err.Message = "Unauthorized user " ++ s.r.httpRequest.basicAuth.1 ∧
        err.err = none ∧ err.Error = none) ∧
      (∀ (message : String) (cause : GoError), (NewError message cause).Error = cause) ∧
      (∀ (message : String) (cause : GoError) (text : String),
        (NewError message cause).Error = some text ↔ cause = some text) := by
  refine ⟨⟨NewError ("Unauthorized user " ++ s.r.httpRequest.basicAuth.1) none, ?_, rfl, rfl, rfl⟩,
    fun _ _ => rfl, fun _ _ _ => Iff.rfl⟩
  have ha : auth s.r = some (NewError ("Unauthorized user " ++ s.r.httpRequest.basicAuth.1)
      none) := by
    simp only [auth, h]
    simp
  unfold Process
  rw [ha]

/-- C17 at the user `Deadpool` and a predicate returning `(false, nil)`. -/
theorem Process_unauthorized_nil_cause_witness :
    ∃ err : requestError, (Process exampleLib exampleGlobals unauthorizedState).1 = some err ∧
      err.Message = "Unauthorized user Deadpool" ∧ err.Error = none := by
  obtain ⟨⟨err, h1, h2, -, h4⟩, -, -⟩ :=
    Process_unauthorized_nil_cause exampleLib exampleGlobals unauthorizedState rfl
  exact ⟨err, h1, h2, h4⟩

/-! ### Validation without a decode target (C18) -/

theorem decodeStage_no_target {Obj : Type} (lib : Lib Obj) (g : Globals) (r : request)
    (m : Mem Obj) (h : r.bodyObject = none) : decodeStage lib g r m = (none, m) := by
  unfold decodeStage
  rw [h]

theorem setBody_ValidateBody (r : request) :
    (setBody r.ValidateBody).2 = (setBody r).2.ValidateBody := by
  simp only [setBody, ReadAll, request.ValidateBody]
  split <;> rfl

theorem queryParamInt64_validate {Obj : Type} (lib : Lib Obj)
    (validate : String → Nat → Mem Obj → Option (List FieldError)) (v : paramInt64) (m : Mem Obj) :
    queryParamInt64 { lib with validate := validate } v m = queryParamInt64 lib v m := by
  unfold queryParamInt64 queryParams
  cases v.data with
  | httprouterParams ps =>
    simp only
    cases ParseInt (ByName ps v.name) with
    | error e => cases e <;> rfl
    | ok i => rfl
  | ginParams ps =>
    simp only
    cases ParseInt (ByName ps v.name) with
    | error e => cases e <;> rfl
    | ok i => rfl
  | other b => rfl

theorem queryAll_validate {Obj : Type} (lib : Lib Obj)
    (validate : String → Nat → Mem Obj → Option (List FieldError)) (l : List paramInt64) (m : Mem Obj) :
    queryAll { lib with validate := validate } l m = queryAll lib l m := by
  induction l generalizing m with
  | nil => rfl
  | cons w ws ih =>
    rw [queryAll, queryAll, queryParamInt64_validate]
    rcases queryParamInt64 lib w m with ⟨e, m1⟩
    cases e with
    | some e => rfl
    | none => exact ih m1

/-- C18: on a pipeline without decode target, calling `ValidateBody()`
changes nothing in what `Process` returns and leaves behind: the error, the
caller's variables and the log are those of the pipeline without the call;
and the validator is not consulted, the outcome being the same for every
validator. -/
theorem Process_validate_without_target {Obj : Type} (lib : Lib Obj) (g : Globals)
    (s : State Obj) (htarget : s.r.bodyObject = none) :
    (Process lib g { s with r := s.r.ValidateBody }).1 = (Process lib g s).1 ∧
      (Process lib g { s with r := s.r.ValidateBody }).2.mem = (Process lib g s).2.mem ∧
      (Process lib g { s with r := s.r.ValidateBody }).2.log = (Process lib g s).2.log ∧
      (∀ validate : String → Nat → Mem Obj → Option (List FieldError),
        Process { lib with validate := validate } g { s with r := s.r.ValidateBody } =
          Process lib g { s with r := s.r.ValidateBody }) := by
  have hauth : auth s.r.ValidateBody = auth s.r := rfl
  have ht2 : (setBody s.r.ValidateBody).2.bodyObject = none := by
    rw [setBody_bodyObject]; exact htarget
  have ht1 : (setBody s.r).2.bodyObject = none := by
    rw [setBody_bodyObject]; exact htarget
  cases ha : auth s.r with
  | some e =>
    have h1 : ∀ (l : Lib Obj) (t : State Obj), auth t.r = some e →
        Process l g t = (some e, t) := by
      intro l t ht
      unfold Process
      rw [ht]
    have e1 := fun l : Lib Obj => h1 l { s with r := s.r.ValidateBody } (hauth.trans ha)
    have e2 := h1 lib s ha
    refine ⟨?_, ?_, ?_, ?_⟩
    · rw [e1 lib, e2]
    · rw [e1 lib, e2]
    · rw [e1 lib, e2]
    · intro validate
      rw [e1, e1 lib]
  | none =>
    have hs := Process_decode_ok lib g s s.mem ha (decodeStage_no_target lib g _ _ ht1)
    have hs2 : ∀ l : Lib Obj, Process l g { s with r := s.r.ValidateBody } = _ :=
      fun l => Process_decode_ok l g { s with r := s.r.ValidateBody } s.mem (hauth.trans ha)
        (decodeStage_no_target l g _ _ ht2)
    refine ⟨?_, ?_, ?_, ?_⟩
    · rw [hs2 lib, hs]
      simp only [setBody_paramsInt64]
      rfl
    · rw [hs2 lib, hs]
      simp only [setBody_paramsInt64]
      rfl
    · rw [hs2 lib, hs]
      simp only [setBody_ValidateBody]
      rfl
    · intro validate
      rw [hs2, hs2 lib]
      simp only [queryAll_validate]

/-- C18 at the pipeline `Request(r).ValidateBody()`. -/
theorem Process_validate_without_target_witness :
    (Process exampleLib exampleGlobals validateOnlyState).1 = none ∧
      (Process exampleLib exampleGlobals validateOnlyState).1 =
        (Process exampleLib exampleGlobals (chainState [])).1 := by
  have h := (Process_validate_without_target exampleLib exampleGlobals (chainState []) rfl).1
  exact ⟨rfl, h⟩

end hrr
